import Mathlib

/-!
# Wireshark's Lua bridge (`epan/wslua/init_wslua.c`)

A shallow embedding of the dispatch and loading functions of `init_wslua.c`.

* The C statics of the file (`L`, the two registry references, the plugin list,
  the `initialized` flag of `wslua_init_routine`, the three dispatch globals)
  are the fields of `World`.
* The Lua C API is modelled on an explicit value stack (`lua_State.stack`, top
  of the stack first) following the Lua reference manual.
* Everything the host can observe (diagnostics, tree items, guest calls,
  `lua_close`) is appended to `World.trace` in the order it happens.
* Guest code, the C library and the Lua library enter through `Env`. A guest
  function is described by how it ends and by the handles it asks for; what
  it does to the engine state (globals, tables) is not modelled.
* A function that uses the static `L` without testing it returns
  `Fault.null_state` when `L` is `NULL`; an unprotected Lua error is
  `Fault.panic`.
-/

namespace Wslua

/-! ## Lua values and the engine state -/

/-- The C functions of `init_wslua.c` that are pushed as error handlers. -/
inductive CFunction where
  | init_error_handler
  | prefs_changed_error_handler
  | lua_main_error_handler
  deriving DecidableEq, Repr

/-- Lua values. Numbers are the integer-valued ones; tables, guest functions and
userdata are references (`id`). -/
inductive LuaValue where
  | nil
  | boolean (b : Bool)
  | number (n : Int)
  | string (s : String)
  | table (id : Nat)
  | function (id : Nat)
  | cfunction (c : CFunction)
  | userdata (id : Nat)
  deriving DecidableEq, Repr

/-- The eight classes of object handed to scripts (`lua_frame_end`, lines 63-73). -/
inductive HandleKind where
  | Tvb
  | TvbRange
  | Pinfo
  | Column
  | Columns
  | PrivateTable
  | TreeItem
  | FieldInfo
  deriving DecidableEq, Repr

/-- How a protected call of guest code ends. -/
inductive CallOutcome where
  | error (msg : LuaValue)
  | returns (vals : List LuaValue)
  deriving DecidableEq, Repr

/-- What a guest callable does when called: the handles it asks the bridge for
while it runs, and how it ends. -/
structure CallResult where
  created : List HandleKind
  outcome : CallOutcome
  deriving DecidableEq, Repr

/-- An open script file as `lua_load` sees it: the status `lua_load` returns for
its text and the value it leaves on the stack (the compiled chunk on status 0,
the error message otherwise). -/
structure FILE where
  load_status : Int
  load_value : LuaValue
  deriving DecidableEq, Repr

/-- Everything outside `init_wslua.c` that its functions depend on. -/
structure Env where
  /-- behaviour of the guest function with the given id on the given arguments -/
  call : Nat → List LuaValue → CallResult
  /-- Lua's string to number coercion (`lua_isnumber`, `lua_tointeger` on strings) -/
  str2d : String → Option Int
  /-- Lua's number to string conversion (`lua_tostring` on numbers) -/
  num2str : Int → String
  /-- `ws_fopen(filename,"r")`: the open file, or `errno` -/
  ws_fopen : String → Except Int FILE
  /-- the macro `WSLUA_INIT_ROUTINES` of `wslua.h` -/
  WSLUA_INIT_ROUTINES : String
  /-- the macro `WSLUA_PREFS_CHANGED` of `wslua.h` -/
  WSLUA_PREFS_CHANGED : String
  /-- `G_DIR_SEPARATOR_S` -/
  G_DIR_SEPARATOR_S : String

/-- A Lua table: its entries in the order `lua_next` enumerates them. -/
abbrev LuaTable := List (LuaValue × LuaValue)

/-- The engine instance. `stack` is the value stack of the running C function,
top of the stack first. -/
structure lua_State where
  stack : List LuaValue
  registry : List (Int × LuaValue)
  globals : List (String × LuaValue)
  tables : List (Nat × LuaTable)
  deriving DecidableEq, Repr

/-! ## Host objects -/

/-- A packet buffer. The host keeps buffer lengths within `gint`. -/
structure tvbuff_t where
  length : Nat
  fits : length < 2147483648

/-- Routines a packet can have registered for the end of its frame. -/
inductive FrameEndRoutine where
  | lua_frame_end
  | other (id : Nat)
  deriving DecidableEq, Repr

/-- The fields of `packet_info` that `init_wslua.c` reads or writes. -/
structure packet_info where
  current_proto : Option String
  heur_list_name : Option String
  frame_end_routines : List FrameEndRoutine
  deriving DecidableEq, Repr

/-- A `proto_tree*`: `none` is `NULL`. -/
abbrev proto_tree := Option Nat

/-- The struct `_wslua_treeitem` allocated by the two dispatch functions. -/
structure wslua_treeitem where
  tree : proto_tree
  expired : Bool
  deriving DecidableEq, Repr

/-- A handle object given to guest code. `outstanding` says that the handle is
on the outstanding array of its kind. -/
structure Handle where
  kind : HandleKind
  expired : Bool
  outstanding : Bool
  deriving DecidableEq, Repr

/-- The linked list of Lua plugins (`struct _wslua_plugin`, lines 39-44):
`last` is a node whose `next` is `NULL`, `cons` a node with a successor. -/
inductive wslua_plugin where
  | last (name : String) (version : String) (filename : String)
  | cons (name : String) (version : String) (filename : String) (next : wslua_plugin)
  deriving DecidableEq, Repr

/-- What the host observes, in order. -/
inductive Event where
  /-- `proto_tree_add_text(...)` followed by `PROTO_ITEM_SET_HIDDEN` -/
  | proto_tree_add_text (text : String)
  /-- `proto_tree_add_expert_format(tree, pinfo, &ei_lua_error, ...)` -/
  | expert (text : String)
  | report_failure (text : String)
  | report_open_failure (filename : String) (err : Int)
  /-- a guest function is entered by `lua_pcall` -/
  | call (f : Nat) (args : List LuaValue)
  | lua_close
  | lua_prime_all_fields
  /-- `(*cb)(RA_LUA_PLUGINS, name, client_data)` -/
  | register_cb (name : String)
  | fclose
  deriving DecidableEq, Repr

/-- Ways the process stops instead of returning. -/
inductive Fault where
  /-- an unprotected Lua error: `wslua_panic` runs `g_error`, which aborts;
  `trace` is what the host had observed by then -/
  | panic (msg : String) (trace : List Event)
  /-- the static `L` is passed to the Lua API while it is `NULL` -/
  | null_state
  /-- the model ran out of loop fuel -/
  | out_of_fuel
  deriving DecidableEq, Repr

/-- The statics of `init_wslua.c` together with the host state it touches. -/
structure World where
  L : Option lua_State
  lua_dissectors_table_ref : Int
  lua_heur_dissectors_table_ref : Int
  wslua_plugin_list : Option wslua_plugin
  initialized : Bool
  lua_pinfo : Option packet_info
  lua_tree : Option wslua_treeitem
  lua_tvb : Option tvbuff_t
  handles : List Handle
  ex_opts : List (String × List String)
  trace : List Event

/-! ## The Lua C API (after the Lua reference manual) -/

/-- Position, counted from the top, of the stack slot with the given API index:
positive indices count from the bottom, negative ones from the top. -/
def stackpos (len : Nat) (idx : Int) : Option Nat :=
  if 0 < idx then
    if idx.toNat ≤ len then some (len - idx.toNat) else none
  else if idx < 0 then
    if (-idx).toNat ≤ len then some ((-idx).toNat - 1) else none
  else none

/-- The value at an API index, `none` for an index outside the stack. -/
def lua_index (Ls : lua_State) (idx : Int) : Option LuaValue :=
  match stackpos Ls.stack.length idx with
  | some p => Ls.stack.get? p
  | none => none

/-- Pushes a value. -/
def lua_push (Ls : lua_State) (v : LuaValue) : lua_State :=
  { Ls with stack := v :: Ls.stack }

/-- The call `lua_settop(L, n)` for `n ≥ 0`. -/
def lua_settop (Ls : lua_State) (n : Nat) : lua_State :=
  { Ls with stack :=
      if n ≤ Ls.stack.length then Ls.stack.drop (Ls.stack.length - n)
      else List.replicate (n - Ls.stack.length) LuaValue.nil ++ Ls.stack }

/-- The call `lua_pop(L, n)`. -/
def lua_pop (Ls : lua_State) (n : Nat) : lua_State :=
  { Ls with stack := Ls.stack.drop n }

/-- The call `lua_remove(L, idx)`. -/
def lua_remove (Ls : lua_State) (idx : Int) : lua_State :=
  match stackpos Ls.stack.length idx with
  | some p => { Ls with stack := Ls.stack.eraseIdx p }
  | none => Ls

/-- Raw lookup in an association list, `nil` when the key is absent. -/
def rawget {κ : Type} [DecidableEq κ] : List (κ × LuaValue) → κ → LuaValue
  | [], _ => LuaValue.nil
  | (k, v) :: rest, key => if k = key then v else rawget rest key

/-- The entries of the table with the given id. -/
def table_entries : List (Nat × LuaTable) → Nat → Option LuaTable
  | [], _ => none
  | (i, t) :: rest, id => if i = id then some t else table_entries rest id

/-- Indexing `t[key]`: `none` when `t` is not a table (Lua raises
"attempt to index"). The tables of this file carry no metatable. -/
def luaV_gettable (tables : List (Nat × LuaTable)) (t key : LuaValue) : Option LuaValue :=
  match t with
  | LuaValue.table id =>
    match table_entries tables id with
    | some entries => some (rawget entries key)
    | none => none
  | _ => none

/-- The call `lua_rawgeti(L, LUA_REGISTRYINDEX, ref)`. -/
def lua_rawgeti_registry (Ls : lua_State) (ref : Int) : lua_State :=
  lua_push Ls (rawget Ls.registry ref)

/-- The call `lua_pushstring(L, s)`; a `NULL` string pushes nil. -/
def lua_pushstring (Ls : lua_State) (s : Option String) : lua_State :=
  match s with
  | some str => lua_push Ls (LuaValue.string str)
  | none => lua_push Ls LuaValue.nil

/-- The call `lua_getglobal(L, name)`. -/
def lua_getglobal (Ls : lua_State) (name : String) : lua_State :=
  lua_push Ls (rawget Ls.globals name)

/-- The call `lua_gettable(L, idx)`: pops the key and pushes `t[key]` for the
table `t` at `idx`, or raises the indexing error. -/
def lua_gettable (Ls : lua_State) (idx : Int) : Except String lua_State :=
  match lua_index Ls idx, Ls.stack with
  | some t, key :: rest =>
    match luaV_gettable Ls.tables t key with
    | some v => Except.ok { Ls with stack := v :: rest }
    | none => Except.error "attempt to index a non-table value"
  | _, _ => Except.error "attempt to index a non-table value"

/-- Lua's `lua_isfunction`: Lua functions and C functions. -/
def LuaValue.isfunction : LuaValue → Bool
  | LuaValue.function _ => true
  | LuaValue.cfunction _ => true
  | _ => false

/-- The call `lua_isfunction(L, idx)`. -/
def lua_isfunction (Ls : lua_State) (idx : Int) : Bool :=
  match lua_index Ls idx with
  | some v => v.isfunction
  | none => false

/-- The call `lua_istable(L, idx)`. -/
def lua_istable (Ls : lua_State) (idx : Int) : Bool :=
  match lua_index Ls idx with
  | some (LuaValue.table _) => true
  | _ => false

/-- The call `lua_isboolean(L, idx)`. -/
def lua_isboolean (Ls : lua_State) (idx : Int) : Bool :=
  match lua_index Ls idx with
  | some (LuaValue.boolean _) => true
  | _ => false

/-- The call `lua_isnil(L, idx)`. -/
def lua_isnil (Ls : lua_State) (idx : Int) : Bool :=
  match lua_index Ls idx with
  | some LuaValue.nil => true
  | _ => false

/-- The call `lua_toboolean(L, idx)`: false for nil and `false`, true for any
other value. -/
def lua_toboolean (Ls : lua_State) (idx : Int) : Bool :=
  match lua_index Ls idx with
  | some LuaValue.nil => false
  | some (LuaValue.boolean b) => b
  | some _ => true
  | none => false

/-- The call `lua_isnumber(L, idx)`: a number, or a string convertible to one. -/
def lua_isnumber (env : Env) (Ls : lua_State) (idx : Int) : Bool :=
  match lua_index Ls idx with
  | some (LuaValue.number _) => true
  | some (LuaValue.string s) => (env.str2d s).isSome
  | _ => false

/-- The call `lua_tointeger(L, idx)`: 0 for a value that is not a number. -/
def lua_tointeger (env : Env) (Ls : lua_State) (idx : Int) : Int :=
  match lua_index Ls idx with
  | some (LuaValue.number n) => n
  | some (LuaValue.string s) => (env.str2d s).getD 0
  | _ => 0

/-- The string `lua_tostring` yields for a value: numbers are converted, any
value that is neither string nor number gives `NULL`. -/
def LuaValue.tostring (env : Env) : LuaValue → Option String
  | LuaValue.string s => some s
  | LuaValue.number n => some (env.num2str n)
  | _ => none

/-- The call `lua_tostring(L, idx)`. A number in the slot is converted to a
string in place (the manual's warning on `lua_tolstring` and `lua_next`). -/
def lua_tostring (env : Env) (Ls : lua_State) (idx : Int) : lua_State × Option String :=
  match stackpos Ls.stack.length idx with
  | some p =>
    match Ls.stack.get? p with
    | some (LuaValue.number n) =>
      ({ Ls with stack := Ls.stack.set p (LuaValue.string (env.num2str n)) }, some (env.num2str n))
    | some v => (Ls, v.tostring env)
    | none => (Ls, none)
  | none => (Ls, none)

/-- How `printf` renders a `%s` argument; glib prints `(null)` for `NULL`. -/
def fmt_s (s : Option String) : String :=
  s.getD "(null)"

/-- Conversion of an integer to the 32-bit `gint`. -/
def toGint (n : Int) : Int :=
  (n + 2147483648) % 4294967296 - 2147483648

/-! ## Host services and the handle registry -/

/-- Modelled from the spec: `report_failure` of the host ("report a failure
message to the user"); one diagnostic per call. -/
def report_failure (W : World) (text : String) : World :=
  { W with trace := W.trace ++ [Event.report_failure text] }

/-- Modelled from the spec: `report_open_failure(path, os_error)` of the host;
one diagnostic per call. -/
def report_open_failure (W : World) (filename : String) (err : Int) : World :=
  { W with trace := W.trace ++ [Event.report_open_failure filename err] }

/-- Modelled from the spec: `proto_tree_add_expert_format` with `ei_lua_error`,
the host's dissection-error diagnostic; one diagnostic per call. -/
def proto_tree_add_expert_format (W : World) (text : String) : World :=
  { W with trace := W.trace ++ [Event.expert text] }

/-- Modelled from the spec: the hidden "fake root item" added with
`proto_tree_add_text` and `PROTO_ITEM_SET_HIDDEN`. -/
def proto_tree_add_text (W : World) (text : String) : World :=
  { W with trace := W.trace ++ [Event.proto_tree_add_text text] }

/-- Modelled from the spec: `tvb_length`, the length of the buffer. -/
def tvb_length (tvb : tvbuff_t) : Nat :=
  tvb.length

/-- Modelled from the spec: `register_frame_end_routine(pinfo, func)` appends
`func` to the routines the host runs when the packet's frame is complete. -/
def register_frame_end_routine (pinfo : packet_info) (func : FrameEndRoutine) : packet_info :=
  { pinfo with frame_end_routines := pinfo.frame_end_routines ++ [func] }

/-- A handle as `track` creates it: unexpired, on the outstanding array. -/
def Handle.fresh (k : HandleKind) : Handle :=
  { kind := k, expired := false, outstanding := true }

/-- Modelled from the spec: `track(object, kind)` of the handle registry. The
new handle is unexpired and on the outstanding array of its kind; its id is
its position in `World.handles`. -/
def track (W : World) (k : HandleKind) : World × Nat :=
  ({ W with handles := W.handles ++ [Handle.fresh k] }, W.handles.length)

/-- Modelled from the spec: `push_Tvb` tracks a buffer handle and pushes it. -/
def push_Tvb (W : World) (Ls : lua_State) : World × lua_State :=
  ((track W HandleKind.Tvb).1, lua_push Ls (LuaValue.userdata (track W HandleKind.Tvb).2))

/-- Modelled from the spec: `push_Pinfo` tracks a metadata handle and pushes it. -/
def push_Pinfo (W : World) (Ls : lua_State) : World × lua_State :=
  ((track W HandleKind.Pinfo).1, lua_push Ls (LuaValue.userdata (track W HandleKind.Pinfo).2))

/-- Modelled from the spec: `push_TreeItem` tracks the tree cursor and pushes it. -/
def push_TreeItem (W : World) (Ls : lua_State) : World × lua_State :=
  ((track W HandleKind.TreeItem).1, lua_push Ls (LuaValue.userdata (track W HandleKind.TreeItem).2))

/-- Modelled from the spec: `clear_outstanding_<kind>` (one half of
`expire_all`): every handle on the outstanding array of the kind is marked
expired and the array is emptied. -/
def clear_outstanding (k : HandleKind) (W : World) : World :=
  { W with handles := W.handles.map fun h =>
      if h.kind = k ∧ h.outstanding = true then { h with expired := true, outstanding := false }
      else h }

/-- Lines 63-73. -/
def lua_frame_end (W : World) : World :=
  let W := clear_outstanding HandleKind.Tvb W
  let W := clear_outstanding HandleKind.TvbRange W
  let W := clear_outstanding HandleKind.Pinfo W
  let W := clear_outstanding HandleKind.Column W
  let W := clear_outstanding HandleKind.Columns W
  let W := clear_outstanding HandleKind.PrivateTable W
  let W := clear_outstanding HandleKind.TreeItem W
  clear_outstanding HandleKind.FieldInfo W

/-- Modelled from the spec: frame completion. The host runs the routines
registered for the packet, in registration order; routines of other
subsystems do not touch the state of this file. -/
def call_frame_end_routines (W : World) (pinfo : packet_info) : World :=
  pinfo.frame_end_routines.foldl
    (fun W r => match r with
      | FrameEndRoutine.lua_frame_end => lua_frame_end W
      | FrameEndRoutine.other _ => W) W

/-- What a guest call leaves in the host: the call is recorded and the handles
the guest asked for are tracked. -/
def guest_effects (W : World) (f : Nat) (args : List LuaValue) (r : CallResult) : World :=
  r.created.foldl (fun W k => (track W k).1)
    { W with trace := W.trace ++ [Event.call f args] }

/-- Lines 264-268. -/
def init_error_handler (env : Env) (W : World) (args : List LuaValue) : World :=
  let error := args.head?.bind (LuaValue.tostring env)
  report_failure W ("Lua: Error During execution of Initialization:\n " ++ fmt_s error)

/-- Lines 285-289. -/
def prefs_changed_error_handler (env : Env) (W : World) (args : List LuaValue) : World :=
  let error := args.head?.bind (LuaValue.tostring env)
  report_failure W ("Lua: Error During execution of prefs apply callback:\n " ++ fmt_s error)

/-- Lines 306-310. -/
def lua_main_error_handler (env : Env) (W : World) (args : List LuaValue) : World :=
  let error := args.head?.bind (LuaValue.tostring env)
  report_failure W ("Lua: Error during loading:\n " ++ fmt_s error)

/-- Runs one of the C functions of this file; each of them returns no value. -/
def run_cfunction (env : Env) (W : World) (c : CFunction) (args : List LuaValue) : World :=
  match c with
  | CFunction.init_error_handler => init_error_handler env W args
  | CFunction.prefs_changed_error_handler => prefs_changed_error_handler env W args
  | CFunction.lua_main_error_handler => lua_main_error_handler env W args

/-- Adjusts a list of results to exactly `n` values, padding with nil. -/
def adjust (n : Nat) (vals : List LuaValue) : List LuaValue :=
  (vals ++ List.replicate n LuaValue.nil).take n

/-- The status `LUA_ERRRUN`. -/
def LUA_ERRRUN : Int := 2

/-- The status `LUA_ERRSYNTAX`. -/
def LUA_ERRSYNTAX : Int := 3

/-- The status `LUA_ERRMEM`. -/
def LUA_ERRMEM : Int := 4

/-- The error exit of `lua_pcall`: with an error handler the handler is called
on the message and what it returns (nil for the handlers of this file, which
return no value) replaces the message; the message is left on the stack. -/
def pcall_error (env : Env) (W : World) (Ls : lua_State) (handler : Option LuaValue)
    (msg : LuaValue) : World × lua_State × Int :=
  match handler with
  | some (LuaValue.cfunction c) => (run_cfunction env W c [msg], lua_push Ls LuaValue.nil, LUA_ERRRUN)
  | _ => (W, lua_push Ls msg, LUA_ERRRUN)

/-- The call `lua_pcall(L, nargs, nresults, errfunc)`: the callee sits below its
`nargs` arguments; all of them are popped; on success the results, adjusted to
`nresults`, are pushed and 0 is returned. -/
def lua_pcall (env : Env) (W : World) (Ls : lua_State) (nargs nresults : Nat) (errfunc : Int) :
    World × lua_State × Int :=
  let args := (Ls.stack.take nargs).reverse
  let rest := Ls.stack.drop (nargs + 1)
  let handler := if errfunc = 0 then none else lua_index Ls errfunc
  match (Ls.stack.drop nargs).head? with
  | some (LuaValue.function f) =>
    match (env.call f args).outcome with
    | CallOutcome.returns vals =>
      (guest_effects W f args (env.call f args),
       { Ls with stack := (adjust nresults vals).reverse ++ rest }, 0)
    | CallOutcome.error msg =>
      pcall_error env (guest_effects W f args (env.call f args)) { Ls with stack := rest } handler msg
  | some (LuaValue.cfunction c) =>
    (run_cfunction env W c args, { Ls with stack := (adjust nresults []).reverse ++ rest }, 0)
  | _ =>
    pcall_error env W { Ls with stack := rest } handler
      (LuaValue.string "attempt to call a non-function value")

/-- Modelled from the spec: the macro `wslua_togint` of `wslua.h`, the numeric
result taken as the consumed-byte count, a `gint`. -/
def wslua_togint (env : Env) (Ls : lua_State) (idx : Int) : Int :=
  toGint (lua_tointeger env Ls idx)

/-! ## The dispatch adapter -/

/-- Lines 80-137. -/
def dissect_lua (env : Env) (W : World) (tvb : tvbuff_t) (pinfo : packet_info)
    (tree : proto_tree) : Except Fault (World × packet_info × Int) :=
  let consumed_bytes : Int := toGint (tvb_length tvb)
  let W := { W with lua_pinfo := some pinfo, lua_tvb := some tvb }
  let W := { W with lua_tree := some { tree := tree, expired := false } }
  let W := proto_tree_add_text W "lua fake item"
  match W.L with
  | none => Except.error Fault.null_state
  | some Ls =>
    let Ls := lua_settop Ls 0
    let Ls := lua_rawgeti_registry Ls W.lua_dissectors_table_ref
    let Ls := lua_pushstring Ls pinfo.current_proto
    match lua_gettable Ls (-2) with
    | Except.error e => Except.error (Fault.panic e W.trace)
    | Except.ok Ls =>
      let Ls := lua_remove Ls 1
      let r : World × lua_State × Int :=
        if lua_isfunction Ls 1 then
          let p1 := push_Tvb W Ls
          let p2 := push_Pinfo p1.1 p1.2
          let p3 := push_TreeItem p2.1 p2.2
          let c := lua_pcall env p3.1 p3.2 3 1 0
          if c.2.2 ≠ 0 then
            let m := lua_tostring env c.2.1 (-1)
            (proto_tree_add_expert_format c.1 ("Lua Error: " ++ fmt_s m.2), m.1, consumed_bytes)
          else if lua_isnumber env c.2.1 (-1) then
            (c.1, lua_pop c.2.1 1, wslua_togint env c.2.1 (-1))
          else
            (c.1, c.2.1, consumed_bytes)
        else
          (proto_tree_add_expert_format W
             ("Lua Error: did not find the " ++ fmt_s pinfo.current_proto
               ++ " dissector in the dissectors table"), Ls, consumed_bytes)
      let pinfo := register_frame_end_routine pinfo FrameEndRoutine.lua_frame_end
      Except.ok
        ({ r.1 with L := some r.2.1, lua_pinfo := none, lua_tree := none, lua_tvb := none },
         pinfo, r.2.2)

/-- Modelled from the spec: `wslua_get_table(L, idx, name)` of `wslua_util.c`.
Fetches field `name` of the table at `idx` without metamethods; if the field
is a table it is pushed and the result is true, otherwise nothing is pushed
and the result is false. -/
def wslua_get_table (Ls : lua_State) (idx : Int) (name : String) : Except String (lua_State × Bool) :=
  match lua_index Ls idx with
  | some t =>
    match luaV_gettable Ls.tables t (LuaValue.string name) with
    | some (LuaValue.table id) => Except.ok (lua_push Ls (LuaValue.table id), true)
    | some _ => Except.ok (Ls, false)
    | none => Except.error "attempt to index a non-table value"
  | none => Except.error "attempt to index a non-table value"

/-- Modelled from the spec: `wslua_get_field(L, idx, name)` of `wslua_util.c`.
Fetches field `name` of the table at `idx` without metamethods; if the field
is present (not nil) it is pushed and the result is true, otherwise nothing is
pushed and the result is false. -/
def wslua_get_field (Ls : lua_State) (idx : Int) (name : String) : Except String (lua_State × Bool) :=
  match lua_index Ls idx with
  | some t =>
    match luaV_gettable Ls.tables t (LuaValue.string name) with
    | some LuaValue.nil => Except.ok (Ls, false)
    | some v => Except.ok (lua_push Ls v, true)
    | none => Except.error "attempt to index a non-table value"
  | none => Except.error "attempt to index a non-table value"

/-- Lines 146-226. A `NULL` buffer or packet info is `none`. -/
def heur_dissect_lua (env : Env) (W : World) (tvb : Option tvbuff_t) (pinfo : Option packet_info)
    (tree : proto_tree) : Except Fault (World × Option packet_info × Bool) :=
  let result := false
  let W := { W with lua_tvb := tvb, lua_pinfo := pinfo }
  match tvb, pinfo, pinfo.bind packet_info.heur_list_name, pinfo.bind packet_info.current_proto with
  | some _, some pi, some heur_list_name, some current_proto =>
    match W.L with
    | none => Except.error Fault.null_state
    | some Ls =>
      let Ls := lua_settop Ls 0
      let Ls := lua_rawgeti_registry Ls W.lua_heur_dissectors_table_ref
      match wslua_get_table Ls (-1) heur_list_name with
      | Except.error e => Except.error (Fault.panic e W.trace)
      | Except.ok (Ls, false) =>
        let Ls := lua_settop Ls 0
        Except.ok
          (report_failure { W with L := some Ls }
             ("internal error in heur_dissect_lua: no " ++ heur_list_name ++ " heur list table"),
           pinfo, false)
      | Except.ok (Ls, true) =>
        match wslua_get_field Ls (-1) current_proto with
        | Except.error e => Except.error (Fault.panic e W.trace)
        | Except.ok (Ls, false) =>
          let Ls := lua_settop Ls 0
          Except.ok
            (report_failure { W with L := some Ls }
               ("internal error in heur_dissect_lua: no " ++ current_proto
                 ++ " heuristic dissector for list " ++ heur_list_name),
             pinfo, false)
        | Except.ok (Ls, true) =>
          let Ls := lua_remove Ls 1
          let Ls := lua_remove Ls 1
          if ¬ lua_isfunction Ls (-1) then
            let Ls := lua_settop Ls 0
            Except.ok
              (report_failure { W with L := some Ls }
                 ("internal error in heur_dissect_lua: " ++ current_proto
                   ++ " heuristic dissector is not a function"),
               pinfo, false)
          else
            let W := { W with lua_tree := some { tree := tree, expired := false } }
            let W := proto_tree_add_text W "lua fake item"
            let p1 := push_Tvb W Ls
            let p2 := push_Pinfo p1.1 p1.2
            let p3 := push_TreeItem p2.1 p2.2
            let c := lua_pcall env p3.1 p3.2 3 1 0
            let r : World × lua_State × Bool :=
              if c.2.2 ≠ 0 then
                let m := lua_tostring env c.2.1 (-1)
                (report_failure c.1
                   (" error calling " ++ current_proto ++ " heuristic dissector: " ++ fmt_s m.2),
                 lua_settop m.1 0, result)
              else if lua_isboolean c.2.1 (-1) || lua_isnil c.2.1 (-1) then
                (c.1, lua_pop c.2.1 1, lua_toboolean c.2.1 (-1))
              else
                (report_failure c.1
                   (" invalid return value from Lua " ++ current_proto ++ " heuristic dissector"),
                 lua_pop c.2.1 1, result)
            let pi := register_frame_end_routine pi FrameEndRoutine.lua_frame_end
            Except.ok
              ({ r.1 with L := some r.2.1, lua_pinfo := none, lua_tree := none, lua_tvb := none },
               some pi, r.2.2)
  | _, _, _, _ =>
    Except.ok (report_failure W "internal error in heur_dissect_lua: NULL packet info", pinfo, false)

/-! ## The callback-table iterator -/

/-- The entry that follows `key` in a table, `none` when `key` is not a key of
the table. -/
def table_after : LuaTable → LuaValue → Option (Option (LuaValue × LuaValue))
  | [], _ => none
  | (k, _) :: rest, key => if k = key then some rest.head? else table_after rest key

/-- The traversal step behind `lua_next`: the first entry for a nil key, the
entry after `key` otherwise; `none` is the error "invalid key to next". -/
def luaH_next (t : LuaTable) (key : LuaValue) : Option (Option (LuaValue × LuaValue)) :=
  if key = LuaValue.nil then some t.head? else table_after t key

/-- The call `lua_next(L, idx)`: pops a key and pushes the next key-value pair
of the table at `idx` (result true), or pushes nothing at the end of the table
(result false), or raises an error. -/
def lua_next (Ls : lua_State) (idx : Int) : Except String (lua_State × Bool) :=
  match lua_index Ls idx, Ls.stack with
  | some (LuaValue.table id), key :: rest =>
    match table_entries Ls.tables id with
    | some t =>
      match luaH_next t key with
      | some (some (k, v)) => Except.ok ({ Ls with stack := v :: k :: rest }, true)
      | some none => Except.ok ({ Ls with stack := rest }, false)
      | none => Except.error "invalid key to next"
    | none => Except.error "table expected"
  | _, _ => Except.error "table expected"

/-- The call `lua_close(LS)`. -/
def lua_close (W : World) : World :=
  { W with trace := W.trace ++ [Event.lua_close] }

/-- The `while (lua_next(LS, 2))` loop of `iter_table_and_call` (lines 243-260),
with the `lua_settop(LS,0)` that follows it. -/
def iter_loop (env : Env) (table_name : String) : Nat → World → lua_State → Except Fault World
  | 0, _, _ => Except.error Fault.out_of_fuel
  | fuel + 1, W, LS =>
    match lua_next LS 2 with
    | Except.error e => Except.error (Fault.panic e W.trace)
    | Except.ok (LS, false) => Except.ok { W with L := some (lua_settop LS 0) }
    | Except.ok (LS, true) =>
      let name := lua_tostring env LS (-2)
      let LS := name.1
      if lua_isfunction LS (-1) then
        let c := lua_pcall env W LS 0 0 1
        iter_loop env table_name fuel c.1 (if c.2.2 ≠ 0 then lua_pop c.2.1 1 else c.2.1)
      else
        Except.ok
          { lua_close (report_failure W
              ("Lua: Something not a function got its way into the " ++ table_name ++ "."
                ++ fmt_s name.2)) with L := none }

/-- Lines 228-261. `fuel` bounds the number of loop tests. -/
def iter_table_and_call (env : Env) (fuel : Nat) (W : World) (LS : lua_State)
    (table_name : String) (error_handler : CFunction) : Except Fault World :=
  let LS := lua_settop LS 0
  let LS := lua_push LS (LuaValue.cfunction error_handler)
  let LS := lua_getglobal LS table_name
  if ¬ lua_istable LS 2 then
    Except.ok
      { lua_close (report_failure W
          ("Lua: either `" ++ table_name ++ "' does not exist or it is not a table!\n"))
        with L := none }
  else
    iter_loop env table_name fuel W (lua_push LS LuaValue.nil)

/-- The call `lua_prime_all_fields(NULL)` of `wslua_field.c`; what it does to the
host lies outside this file and is recorded as one event. -/
def lua_prime_all_fields (W : World) : World :=
  { W with trace := W.trace ++ [Event.lua_prime_all_fields] }

/-- Lines 271-283. -/
def wslua_init_routine (env : Env) (fuel : Nat) (W : World) : Except Fault World :=
  let W := if ¬ W.initialized then { lua_prime_all_fields W with initialized := true } else W
  match W.L with
  | some Ls => iter_table_and_call env fuel W Ls env.WSLUA_INIT_ROUTINES CFunction.init_error_handler
  | none => Except.ok W

/-- Lines 291-295. -/
def wslua_prefs_changed (env : Env) (fuel : Nat) (W : World) : Except Fault World :=
  match W.L with
  | some Ls =>
    iter_table_and_call env fuel W Ls env.WSLUA_PREFS_CHANGED CFunction.prefs_changed_error_handler
  | none => Except.ok W

/-! ## The plugin list -/

/-- The tail walk of `wslua_add_plugin` (lines 322-325): follows `next` to the
last node and links the new node there. -/
def wslua_plugin.link_at_tail : wslua_plugin → wslua_plugin → wslua_plugin
  | wslua_plugin.last n v f, new_plug => wslua_plugin.cons n v f new_plug
  | wslua_plugin.cons n v f next, new_plug => wslua_plugin.cons n v f (next.link_at_tail new_plug)

/-- Lines 312-332. -/
def wslua_add_plugin (W : World) (name version filename : String) : World :=
  let new_plug := wslua_plugin.last name version filename
  match W.wslua_plugin_list with
  | none => { W with wslua_plugin_list := some new_plug }
  | some lua_plug => { W with wslua_plugin_list := some (lua_plug.link_at_tail new_plug) }

/-- One invocation of a `wslua_plugin_description_callback`. -/
structure Description where
  name : String
  version : String
  description : String
  filename : String
  deriving DecidableEq, Repr

/-- The `for` loop of `wslua_plugins_get_descriptions` from a given node. -/
def wslua_plugin.descriptions : wslua_plugin → List Description
  | wslua_plugin.last n v f => [⟨n, v, "lua script", f⟩]
  | wslua_plugin.cons n v f next => ⟨n, v, "lua script", f⟩ :: next.descriptions

/-- Lines 485-493: the callback invocations, in order. -/
def wslua_plugins_get_descriptions (W : World) : List Description :=
  match W.wslua_plugin_list with
  | none => []
  | some lua_plug => lua_plug.descriptions

/-! ## The script loader -/

/-- Modelled from the spec: the pending values of a repeated command-line
option (`ex_opt_get_next` returns them one by one, oldest first). -/
def ex_opt_pending : List (String × List String) → String → List String
  | [], _ => []
  | (k, vals) :: rest, key => if k = key then vals else ex_opt_pending rest key

/-- Modelled from the spec: the option store after `ex_opt_get_next` has handed
out every pending value of `key`. -/
def ex_opt_drain : List (String × List String) → String → List (String × List String)
  | [], _ => []
  | (k, vals) :: rest, key => if k = key then (k, []) :: rest else (k, vals) :: ex_opt_drain rest key

/-- Lines 334-346: pushes every pending value of option `lua_script<N>` and
returns how many there were. -/
def lua_script_push_args (W : World) (Ls : lua_State) (script_num : Int) :
    World × lua_State × Nat :=
  let argname := "lua_script" ++ toString script_num
  let vals := ex_opt_pending W.ex_opts argname
  ({ W with ex_opts := ex_opt_drain W.ex_opts argname },
   vals.foldl (fun Ls argvalue => lua_pushstring Ls (some argvalue)) Ls,
   vals.length)

/-- The call `fclose(file)`. -/
def fclose (W : World) : World :=
  { W with trace := W.trace ++ [Event.fclose] }

/-- Lines 351-393. -/
def lua_load_script (env : Env) (W : World) (filename : String) (file_count : Int) :
    Except Fault (World × Bool) :=
  match env.ws_fopen filename with
  | Except.error errno => Except.ok (report_open_failure W filename errno, false)
  | Except.ok file =>
    match W.L with
    | none => Except.error Fault.null_state
    | some Ls =>
      let Ls := lua_settop Ls 0
      let Ls := lua_push Ls (LuaValue.cfunction CFunction.lua_main_error_handler)
      let Ls := lua_push Ls file.load_value
      let error := file.load_status
      if error = 0 then
        let a : World × lua_State × Nat :=
          if file_count > 0 then lua_script_push_args W Ls file_count else (W, Ls, 0)
        let c := lua_pcall env a.1 a.2.1 a.2.2 0 1
        Except.ok ({ fclose c.1 with L := some (lua_pop c.2.1 1) }, true)
      else if error = LUA_ERRSYNTAX then
        let m := lua_tostring env Ls (-1)
        Except.ok
          ({ fclose (report_failure W
               ("Lua: syntax error during precompilation of `" ++ filename ++ "':\n" ++ fmt_s m.2))
             with L := some m.1 }, false)
      else if error = LUA_ERRMEM then
        Except.ok
          ({ fclose (report_failure W
               ("Lua: memory allocation error during execution of " ++ filename))
             with L := some Ls }, false)
      else
        Except.ok
          ({ fclose (report_failure W
               ("Lua: unknown error during execution of " ++ filename ++ ": " ++ toString error))
             with L := some Ls }, false)

/-- A name read from a directory, with what the file system says about it. -/
inductive DirEntry where
  /-- a file: `test_for_directory` is not `EISDIR` and `file_exists` holds -/
  | file (name : String)
  /-- a name that `file_exists` does not find (say a dangling link) -/
  | dangling (name : String)
  /-- a directory with what `ws_dir_open` yields for it (`none` is `NULL`) -/
  | dir (name : String) (content : Option (List DirEntry))

/-- The name `ws_dir_get_name` returns. -/
def DirEntry.name : DirEntry → String
  | DirEntry.file n => n
  | DirEntry.dangling n => n
  | DirEntry.dir n _ => n

/-- Whether `file_exists(filename)` holds for the entry. -/
def DirEntry.file_exists : DirEntry → Bool
  | DirEntry.file _ => true
  | DirEntry.dangling _ => false
  | DirEntry.dir _ _ => true

/-- The text after the last occurrence of `c` (`strrchr(name, c) + 1`), `none`
when `c` does not occur. -/
def strrchr : List Char → Char → Option (List Char)
  | [], _ => none
  | x :: xs, c =>
    match strrchr xs c with
    | some r => some r
    | none => if x = c then some xs else none

/-- Whether `g_ascii_strcasecmp(a, b) == 0`. -/
def g_ascii_strcasecmp_eq (a b : List Char) : Bool :=
  a.map Char.toLower = b.map Char.toLower

/-- The two name tests of lines 429-440: true when the file is skipped. -/
def skip_name (name : String) : Bool :=
  if name.data.head? = some '.' then true
  else
    match strrchr name.data '.' with
    | none => true
    | some ext => !g_ascii_strcasecmp_eq ext "lua".data

mutual
/-- Lines 408-458. `dir` is what `ws_dir_open(dirname)` yields, `cb` says whether
the callback pointer is set. -/
def lua_load_plugins (env : Env) (W : World) (dirname : String) (dir : Option (List DirEntry))
    (cb : Bool) (count_only : Bool) : Except Fault (World × Int) :=
  match dir with
  | none => Except.ok (W, 0)
  | some entries => lua_load_plugins_loop env W dirname entries cb count_only 0
/-- The `while ((file = ws_dir_read_name(dir)) != NULL)` loop of lines 416-453. -/
def lua_load_plugins_loop (env : Env) (W : World) (dirname : String) (entries : List DirEntry)
    (cb : Bool) (count_only : Bool) (plugins_counter : Int) : Except Fault (World × Int) :=
  match entries with
  | [] => Except.ok (W, plugins_counter)
  | file :: rest =>
    if file.name = "." ∨ file.name = ".." then
      lua_load_plugins_loop env W dirname rest cb count_only plugins_counter
    else
      let filename := dirname ++ env.G_DIR_SEPARATOR_S ++ file.name
      match file with
      | DirEntry.dir _ content =>
        match lua_load_plugins env W filename content cb count_only with
        | Except.error e => Except.error e
        | Except.ok (W1, n) =>
          lua_load_plugins_loop env W1 dirname rest cb count_only (plugins_counter + n)
      | _ =>
        if skip_name file.name then
          lua_load_plugins_loop env W dirname rest cb count_only plugins_counter
        else if file.file_exists then
          if count_only then
            lua_load_plugins_loop env W dirname rest cb count_only (plugins_counter + 1)
          else
            let W1 :=
              if cb then { W with trace := W.trace ++ [Event.register_cb file.name] } else W
            match lua_load_script env W1 filename 0 with
            | Except.error e => Except.error e
            | Except.ok (W2, true) =>
              lua_load_plugins_loop env (wslua_add_plugin W2 file.name "" filename) dirname rest
                cb count_only (plugins_counter + 1)
            | Except.ok (W2, false) =>
              lua_load_plugins_loop env W2 dirname rest cb count_only (plugins_counter + 1)
        else
          lua_load_plugins_loop env W dirname rest cb count_only plugins_counter
end

/-! ## Observations used to state the properties -/

/-- The spec's `lookup_dissector(name)`: the entry of the exact-match table,
`registry[lua_dissectors_table_ref][name]`; `none` when the registry slot holds
no table. -/
def lookup_dissector (W : World) (Ls : lua_State) (name : String) : Option LuaValue :=
  luaV_gettable Ls.tables (rawget Ls.registry W.lua_dissectors_table_ref) (LuaValue.string name)

/-- The list level of the nested heuristic table,
`registry[lua_heur_dissectors_table_ref][list_name]`. -/
def lookup_heur_list (W : World) (Ls : lua_State) (list_name : String) : Option LuaValue :=
  luaV_gettable Ls.tables (rawget Ls.registry W.lua_heur_dissectors_table_ref)
    (LuaValue.string list_name)

/-- The spec's `lookup_heuristic(list_name, protocol_name)`: the entry
`registry[lua_heur_dissectors_table_ref][list_name][protocol_name]`; `none` when
there is no sub-table for the list name. -/
def lookup_heuristic (W : World) (Ls : lua_State) (list_name protocol_name : String) :
    Option LuaValue :=
  match lookup_heur_list W Ls list_name with
  | some (LuaValue.table id) =>
    luaV_gettable Ls.tables (LuaValue.table id) (LuaValue.string protocol_name)
  | _ => none

/-- The kinds of handle guest code asks for during `lua_pcall(L, nargs, ...)`:
those of the guest function that is called, none for any other callee. -/
def pcall_created (env : Env) (Ls : lua_State) (nargs : Nat) : List HandleKind :=
  match (Ls.stack.drop nargs).head? with
  | some (LuaValue.function f) => (env.call f (Ls.stack.take nargs).reverse).created
  | _ => []

/-- Events that are diagnostics shown to the user. -/
def Event.is_diagnostic : Event → Bool
  | Event.expert _ => true
  | Event.report_failure _ => true
  | Event.report_open_failure _ _ => true
  | _ => false

/-- Events that are entries into guest code. -/
def Event.is_call : Event → Bool
  | Event.call _ _ => true
  | _ => false

/-- What was observed between state `W` and the later state `W1`. -/
def emitted (W W1 : World) : List Event :=
  W1.trace.drop W.trace.length

/-- The diagnostics among a list of events. -/
def diagnostics (t : List Event) : List Event :=
  t.filter Event.is_diagnostic

/-- The guest calls among a list of events. -/
def guest_calls (t : List Event) : List Event :=
  t.filter Event.is_call


/-- The diagnostic with which an error handler of this file reports the error
value of a failed call. -/
def handler_report (env : Env) (c : CFunction) (msg : LuaValue) : Event :=
  Event.report_failure
    ((match c with
      | CFunction.init_error_handler => "Lua: Error During execution of Initialization:\n "
      | CFunction.prefs_changed_error_handler =>
        "Lua: Error During execution of prefs apply callback:\n "
      | CFunction.lua_main_error_handler => "Lua: Error during loading:\n ")
      ++ fmt_s (msg.tostring env))

/-- What the host observes of one callback-table entry that is invoked: the
call without arguments and, if it raises an error, the handler's report. -/
def entry_events (env : Env) (error_handler : CFunction) (entry : LuaValue × LuaValue) :
    List Event :=
  match entry.2 with
  | LuaValue.function f =>
    match (env.call f []).outcome with
    | CallOutcome.returns _ => [Event.call f []]
    | CallOutcome.error msg => [Event.call f [], handler_report env error_handler msg]
  | _ => []

/-- What the host observes when every entry of a table is invoked once, in
iteration order. -/
def table_events (env : Env) (error_handler : CFunction) : LuaTable → List Event
  | [] => []
  | entry :: rest => entry_events env error_handler entry ++ table_events env error_handler rest

/-- The spec's eligibility of a file name: the name does not start with a dot
and its extension is the Lua suffix, that is, the name ends in `.lua`, letters
compared without regard to ASCII case. -/
def eligible (name : String) : Bool :=
  !(name.data.head? = some '.') && ".lua".data.isSuffixOf (name.data.map Char.toLower)

mutual
/-- The eligible files of a directory tree, as pairs of file name and full
path, every subdirectory included. -/
def eligible_files (sep dirname : String) : Option (List DirEntry) → List (String × String)
  | none => []
  | some entries => eligible_files_list sep dirname entries
/-- The eligible files below a list of directory entries. -/
def eligible_files_list (sep dirname : String) : List DirEntry → List (String × String)
  | [] => []
  | DirEntry.file name :: rest =>
    (if eligible name then [(name, dirname ++ sep ++ name)] else [])
      ++ eligible_files_list sep dirname rest
  | DirEntry.dangling _ :: rest => eligible_files_list sep dirname rest
  | DirEntry.dir name content :: rest =>
    eligible_files sep (dirname ++ sep ++ name) content ++ eligible_files_list sep dirname rest
end

mutual
/-- A directory tree as a file system presents it: no directory is called `.`
or `..`. -/
def well_formed : Option (List DirEntry) → Bool
  | none => true
  | some entries => well_formed_list entries
/-- Well-formedness of a list of directory entries. -/
def well_formed_list : List DirEntry → Bool
  | [] => true
  | DirEntry.file _ :: rest => well_formed_list rest
  | DirEntry.dangling _ :: rest => well_formed_list rest
  | DirEntry.dir name content :: rest =>
    name != "." && name != ".." && well_formed content && well_formed_list rest
end

/-- Whether loading the script at `path` succeeds: the file opens and compiles. -/
def script_loads (env : Env) (path : String) : Bool :=
  match env.ws_fopen path with
  | Except.ok file => file.load_status = 0
  | Except.error _ => false

/-- The plugin record `lua_load_plugins` adds for an eligible file. -/
def plugin_record (e : String × String) : Description :=
  ⟨e.1, "", "lua script", e.2⟩

/-! ## A concrete engine on which the statements are exercised -/

/-- Behaviour of the guest functions of the concrete engine, by id. -/
def demo_call (f : Nat) : CallResult :=
  match f with
  | 1 => ⟨[HandleKind.TvbRange], CallOutcome.returns [LuaValue.number (-5)]⟩
  | 2 => ⟨[], CallOutcome.error (LuaValue.string "boom")⟩
  | 3 => ⟨[], CallOutcome.returns [LuaValue.number (-2147483649)]⟩
  | 4 => ⟨[], CallOutcome.returns [LuaValue.boolean true]⟩
  | 6 => ⟨[], CallOutcome.returns [LuaValue.string "x"]⟩
  | 7 => ⟨[], CallOutcome.returns [LuaValue.string "42"]⟩
  | _ => ⟨[], CallOutcome.returns []⟩

/-- Files of the concrete engine: two scripts that compile (the second raises
an error when run), one with a syntax error; any other path does not open. -/
def demo_fopen (filename : String) : Except Int FILE :=
  if filename = "plugins/a.lua" then Except.ok ⟨0, LuaValue.function 5⟩
  else if filename = "plugins/sub/c.lua" then Except.ok ⟨0, LuaValue.function 2⟩
  else if filename = "plugins/bad.lua" then Except.ok ⟨LUA_ERRSYNTAX, LuaValue.string "unexpected symbol"⟩
  else Except.error 2

/-- Value of a run of decimal digits, `none` if another character occurs. -/
def demo_digits : List Char → Nat → Option Nat
  | [], acc => some acc
  | c :: cs, acc =>
    if c.isDigit then demo_digits cs (acc * 10 + (c.toNat - '0'.toNat)) else none

/-- The string to number coercion of the concrete engine: decimal integers
with an optional minus sign, which Lua converts to the number they spell. -/
def demo_str2d (s : String) : Option Int :=
  match s.data with
  | [] => none
  | ['-'] => none
  | '-' :: ds => (demo_digits ds 0).map fun n => -(n : Int)
  | ds => (demo_digits ds 0).map fun n => (n : Int)

/-- The environment of the concrete engine. -/
def demo_env : Env :=
  { call := fun f _ => demo_call f
    str2d := demo_str2d
    num2str := fun n => toString n
    ws_fopen := demo_fopen
    WSLUA_INIT_ROUTINES := "init_routines"
    WSLUA_PREFS_CHANGED := "prefs_changed"
    G_DIR_SEPARATOR_S := "/" }

/-- The engine state: table 0 is the exact-match table, table 1 the heuristic
table with the list `udp` (table 2), table 3 the `init_routines` table, filled
with `table.insert`; there is no `prefs_changed` table. -/
def demo_state : lua_State :=
  { stack := []
    registry := [(1, LuaValue.table 0), (2, LuaValue.table 1)]
    globals := [("init_routines", LuaValue.table 3)]
    tables :=
      [(0, [(LuaValue.string "foo", LuaValue.function 1), (LuaValue.string "bar", LuaValue.function 2),
            (LuaValue.string "big", LuaValue.function 3), (LuaValue.string "txt", LuaValue.function 7)]),
       (1, [(LuaValue.string "udp", LuaValue.table 2)]),
       (2, [(LuaValue.string "foo", LuaValue.function 4), (LuaValue.string "bar", LuaValue.function 2),
            (LuaValue.string "str", LuaValue.function 6), (LuaValue.string "num", LuaValue.number 3)]),
       (3, [(LuaValue.number 1, LuaValue.function 5), (LuaValue.number 2, LuaValue.function 4)])] }

/-- The statics after `wslua_init`, before any packet. -/
def demo_world : World :=
  { L := some demo_state
    lua_dissectors_table_ref := 1
    lua_heur_dissectors_table_ref := 2
    wslua_plugin_list := none
    initialized := false
    lua_pinfo := none
    lua_tree := none
    lua_tvb := none
    handles := []
    ex_opts := []
    trace := [] }

/-- A buffer of 100 bytes. -/
def demo_tvb : tvbuff_t :=
  ⟨100, by decide⟩

/-- A packet of protocol `proto` met on the heuristic list `udp`. -/
def demo_pinfo (proto : String) : packet_info :=
  { current_proto := some proto, heur_list_name := some "udp", frame_end_routines := [] }

/-- The plugin directory of the spec's example. -/
def demo_tree : List DirEntry :=
  [DirEntry.file "a.lua", DirEntry.file ".hidden.lua", DirEntry.file "b.txt",
   DirEntry.dir "sub" (some [DirEntry.file "c.lua"])]


/-- The statics after `wslua_prefs_changed` has run on `demo_world`: there is
no `prefs_changed` table, so the engine has been shut down. -/
def demo_world_closed : World :=
  { demo_world with
    L := none
    trace := [Event.report_failure
      "Lua: either `prefs_changed' does not exist or it is not a table!\n", Event.lua_close] }

/-- The concrete engine with table 2 registered as the exact-match table: its
entry `str` returns the string "x", its entry `foo` the boolean true. -/
def demo_world_alt : World :=
  { demo_world with
    L := some { demo_state with registry := [(1, LuaValue.table 2), (2, LuaValue.table 1)] } }

/-- The engine state with table 2 installed as the global `init_routines`:
three functions under string keys (the second raises an error) followed by a
number under the key `num`. -/
def demo_state_hooks : lua_State :=
  { demo_state with globals := [("init_routines", LuaValue.table 2)] }

/-! ## Auxiliary facts -/

theorem toGint_of_range (n : Int) (h1 : -2147483648 ≤ n) (h2 : n < 2147483648) : toGint n = n := by
  unfold toGint
  omega

theorem toGint_tvb_length (tvb : tvbuff_t) : toGint (tvb_length tvb) = tvb_length tvb := by
  have := tvb.fits
  unfold tvb_length
  apply toGint_of_range <;> omega

theorem track_fold_trace (ks : List HandleKind) (W : World) :
    (ks.foldl (fun W k => (track W k).1) W).trace = W.trace := by
  induction ks generalizing W with
  | nil => rfl
  | cons k ks ih => rw [List.foldl_cons, ih]; rfl

theorem track_fold_handles (ks : List HandleKind) (W : World) :
    (ks.foldl (fun W k => (track W k).1) W).handles
      = W.handles ++ ks.map Handle.fresh := by
  induction ks generalizing W with
  | nil => simp
  | cons k ks ih => rw [List.foldl_cons, ih]; simp [track]

theorem guest_effects_trace (W : World) (f : Nat) (args : List LuaValue) (r : CallResult) :
    (guest_effects W f args r).trace = W.trace ++ [Event.call f args] := by
  simp [guest_effects, track_fold_trace]

theorem guest_effects_handles (W : World) (f : Nat) (args : List LuaValue) (r : CallResult) :
    (guest_effects W f args r).handles
      = W.handles ++ r.created.map Handle.fresh := by
  simp [guest_effects, track_fold_handles]

theorem emitted_append (W W1 : World) (es : List Event) (h : W1.trace = W.trace ++ es) :
    emitted W W1 = es := by
  simp [emitted, h]

/-- The exact-dispatch call when the table entry is not a function. -/
theorem dissect_lua_not_function (env : Env) (W : World) (Ls : lua_State) (tvb : tvbuff_t)
    (pinfo : packet_info) (tree : proto_tree) (P : String) (e : LuaValue)
    (hL : W.L = some Ls) (hP : pinfo.current_proto = some P)
    (he : lookup_dissector W Ls P = some e) (hnf : e.isfunction = false) :
    ∃ W1, dissect_lua env W tvb pinfo tree
        = Except.ok (W1, register_frame_end_routine pinfo FrameEndRoutine.lua_frame_end,
            (tvb_length tvb : Int))
      ∧ W1.trace = W.trace ++ [Event.proto_tree_add_text "lua fake item",
          Event.expert ("Lua Error: did not find the " ++ P ++ " dissector in the dissectors table")]
      ∧ W1.handles = W.handles := by
  unfold lookup_dissector at he
  simp [dissect_lua, hL, hP, proto_tree_add_text, lua_settop, lua_rawgeti_registry, lua_pushstring,
    lua_push, lua_gettable, lua_index, stackpos, he, lua_remove, lua_isfunction, hnf,
    proto_tree_add_expert_format, fmt_s, toGint_tvb_length]

/-- The exact-dispatch call when the registered function raises an error. -/
theorem dissect_lua_error (env : Env) (W : World) (Ls : lua_State) (tvb : tvbuff_t)
    (pinfo : packet_info) (tree : proto_tree) (P : String) (f : Nat) (msg : LuaValue)
    (hL : W.L = some Ls) (hP : pinfo.current_proto = some P)
    (hf : lookup_dissector W Ls P = some (LuaValue.function f))
    (hr : (env.call f [LuaValue.userdata W.handles.length,
      LuaValue.userdata (W.handles.length + 1),
      LuaValue.userdata (W.handles.length + 2)]).outcome = CallOutcome.error msg) :
    ∃ W1, dissect_lua env W tvb pinfo tree
        = Except.ok (W1, register_frame_end_routine pinfo FrameEndRoutine.lua_frame_end,
            (tvb_length tvb : Int))
      ∧ W1.trace = W.trace ++ [Event.proto_tree_add_text "lua fake item",
          Event.call f [LuaValue.userdata W.handles.length,
            LuaValue.userdata (W.handles.length + 1), LuaValue.userdata (W.handles.length + 2)],
          Event.expert ("Lua Error: " ++ fmt_s (msg.tostring env))] := by
  unfold lookup_dissector at hf
  simp [dissect_lua, hL, hP, proto_tree_add_text, lua_settop, lua_rawgeti_registry, lua_pushstring,
    lua_push, lua_gettable, lua_index, stackpos, hf, lua_remove, lua_isfunction,
    LuaValue.isfunction, push_Tvb, push_Pinfo, push_TreeItem, track, lua_pcall, hr, pcall_error,
    LUA_ERRRUN, lua_tostring, proto_tree_add_expert_format, toGint_tvb_length,
    guest_effects_trace]
  cases msg <;> simp [LuaValue.tostring, guest_effects_trace]

/-- The exact-dispatch call when the registered function returns. -/
theorem dissect_lua_returns (env : Env) (W : World) (Ls : lua_State) (tvb : tvbuff_t)
    (pinfo : packet_info) (tree : proto_tree) (P : String) (f : Nat) (vals : List LuaValue)
    (hL : W.L = some Ls) (hP : pinfo.current_proto = some P)
    (hf : lookup_dissector W Ls P = some (LuaValue.function f))
    (hr : (env.call f [LuaValue.userdata W.handles.length,
      LuaValue.userdata (W.handles.length + 1),
      LuaValue.userdata (W.handles.length + 2)]).outcome = CallOutcome.returns vals) :
    ∃ W1, dissect_lua env W tvb pinfo tree
        = Except.ok (W1, register_frame_end_routine pinfo FrameEndRoutine.lua_frame_end,
            match vals.head?.getD LuaValue.nil with
            | LuaValue.number n => toGint n
            | LuaValue.string s =>
              match env.str2d s with
              | some n => toGint n
              | none => (tvb_length tvb : Int)
            | _ => (tvb_length tvb : Int))
      ∧ W1.trace = W.trace ++ [Event.proto_tree_add_text "lua fake item",
          Event.call f [LuaValue.userdata W.handles.length,
            LuaValue.userdata (W.handles.length + 1), LuaValue.userdata (W.handles.length + 2)]] := by
  unfold lookup_dissector at hf
  have hadj : adjust 1 vals = [vals.head?.getD LuaValue.nil] := by
    cases vals <;> simp [adjust]
  simp [dissect_lua, hL, hP, proto_tree_add_text, lua_settop, lua_rawgeti_registry, lua_pushstring,
    lua_push, lua_gettable, lua_index, stackpos, hf, lua_remove, lua_isfunction,
    LuaValue.isfunction, push_Tvb, push_Pinfo, push_TreeItem, track, lua_pcall, hr, hadj,
    lua_isnumber, wslua_togint, lua_tointeger, toGint_tvb_length, guest_effects_trace, lua_pop]
  generalize vals.head?.getD LuaValue.nil = top
  cases top <;> simp [guest_effects_trace]
  case string s =>
    cases hs : env.str2d s <;> simp [guest_effects_trace]

/-- The heuristic call up to the protected call, when the entry is a guest
function: the result for each way the function can end. -/
theorem heur_dissect_lua_function (env : Env) (W : World) (Ls : lua_State) (tvb : tvbuff_t)
    (pi : packet_info) (tree : proto_tree) (ln P : String) (f : Nat)
    (hL : W.L = some Ls) (hln : pi.heur_list_name = some ln) (hP : pi.current_proto = some P)
    (hf : lookup_heuristic W Ls ln P = some (LuaValue.function f)) :
    ∃ W1, heur_dissect_lua env W (some tvb) (some pi) tree
        = Except.ok (W1, some (register_frame_end_routine pi FrameEndRoutine.lua_frame_end),
            match (env.call f [LuaValue.userdata W.handles.length,
              LuaValue.userdata (W.handles.length + 1),
              LuaValue.userdata (W.handles.length + 2)]).outcome with
            | CallOutcome.returns vals =>
              (match vals.head?.getD LuaValue.nil with
               | LuaValue.boolean b => b
               | _ => false)
            | CallOutcome.error _ => false)
      ∧ W1.trace = W.trace ++ ([Event.proto_tree_add_text "lua fake item",
          Event.call f [LuaValue.userdata W.handles.length,
            LuaValue.userdata (W.handles.length + 1), LuaValue.userdata (W.handles.length + 2)]]
          ++ (match (env.call f [LuaValue.userdata W.handles.length,
              LuaValue.userdata (W.handles.length + 1),
              LuaValue.userdata (W.handles.length + 2)]).outcome with
            | CallOutcome.returns vals =>
              (match vals.head?.getD LuaValue.nil with
               | LuaValue.boolean _ => []
               | LuaValue.nil => []
               | _ => [Event.report_failure
                   (" invalid return value from Lua " ++ P ++ " heuristic dissector")])
            | CallOutcome.error msg =>
              [Event.report_failure (" error calling " ++ P ++ " heuristic dissector: "
                ++ fmt_s (msg.tostring env))])) := by
  unfold lookup_heuristic at hf
  split at hf
  case h_2 => exact absurd hf (by simp)
  case h_1 id hid =>
    unfold lookup_heur_list at hid
    have hadj : ∀ vals : List LuaValue, adjust 1 vals = [vals.head?.getD LuaValue.nil] := by
      intro vals; cases vals <;> simp [adjust]
    cases hr : (env.call f [LuaValue.userdata W.handles.length,
        LuaValue.userdata (W.handles.length + 1),
        LuaValue.userdata (W.handles.length + 2)]).outcome with
    | error msg =>
      simp [heur_dissect_lua, hL, hln, hP, proto_tree_add_text, lua_settop, lua_rawgeti_registry,
        lua_push, lua_index, stackpos, hf, hid, lua_remove, lua_isfunction, wslua_get_table,
        wslua_get_field, LuaValue.isfunction, push_Tvb, push_Pinfo, push_TreeItem, track,
        lua_pcall, hr, pcall_error, LUA_ERRRUN, lua_tostring, report_failure,
        guest_effects_trace]
      cases msg <;> simp [LuaValue.tostring, guest_effects_trace]
    | returns vals =>
      simp [heur_dissect_lua, hL, hln, hP, proto_tree_add_text, lua_settop, lua_rawgeti_registry,
        lua_push, lua_index, stackpos, hf, hid, lua_remove, lua_isfunction, wslua_get_table,
        wslua_get_field, LuaValue.isfunction, push_Tvb, push_Pinfo, push_TreeItem, track,
        lua_pcall, hr, hadj, lua_isboolean, lua_isnil, lua_toboolean, report_failure, lua_pop,
        guest_effects_trace]
      generalize vals.head?.getD LuaValue.nil = top
      cases top <;> simp [guest_effects_trace]

/-- The heuristic call with missing context (line 151). -/
theorem heur_dissect_lua_null (env : Env) (W : World) (tvb : Option tvbuff_t)
    (pinfo : Option packet_info) (tree : proto_tree)
    (h : tvb = none ∨ pinfo = none ∨ pinfo.bind packet_info.heur_list_name = none
      ∨ pinfo.bind packet_info.current_proto = none) :
    heur_dissect_lua env W tvb pinfo tree
      = Except.ok (report_failure { W with lua_tvb := tvb, lua_pinfo := pinfo }
          "internal error in heur_dissect_lua: NULL packet info", pinfo, false) := by
  unfold heur_dissect_lua
  split
  · rename_i h1 h2 h3 h4
    simp_all
  · rfl

/-- The heuristic call when the list name has no sub-table (line 169). -/
theorem heur_dissect_lua_no_list (env : Env) (W : World) (Ls : lua_State) (tvb : tvbuff_t)
    (pi : packet_info) (tree : proto_tree) (ln P : String) (e : LuaValue)
    (hL : W.L = some Ls) (hln : pi.heur_list_name = some ln) (hP : pi.current_proto = some P)
    (he : lookup_heur_list W Ls ln = some e) (hne : ∀ id, e ≠ LuaValue.table id) :
    ∃ W1, heur_dissect_lua env W (some tvb) (some pi) tree = Except.ok (W1, some pi, false)
      ∧ W1.trace = W.trace ++ [Event.report_failure
          ("internal error in heur_dissect_lua: no " ++ ln ++ " heur list table")]
      ∧ W1.handles = W.handles := by
  unfold lookup_heur_list at he
  cases e <;>
    simp_all [heur_dissect_lua, lua_settop, lua_rawgeti_registry, lua_push, lua_index, stackpos,
      wslua_get_table, report_failure]

/-- The heuristic call when the sub-table has no entry for the protocol
(line 177). -/
theorem heur_dissect_lua_no_entry (env : Env) (W : World) (Ls : lua_State) (tvb : tvbuff_t)
    (pi : packet_info) (tree : proto_tree) (ln P : String)
    (hL : W.L = some Ls) (hln : pi.heur_list_name = some ln) (hP : pi.current_proto = some P)
    (he : lookup_heuristic W Ls ln P = some LuaValue.nil) :
    ∃ W1, heur_dissect_lua env W (some tvb) (some pi) tree = Except.ok (W1, some pi, false)
      ∧ W1.trace = W.trace ++ [Event.report_failure
          ("internal error in heur_dissect_lua: no " ++ P ++ " heuristic dissector for list "
            ++ ln)]
      ∧ W1.handles = W.handles := by
  unfold lookup_heuristic at he
  split at he
  case h_2 => exact absurd he (by simp)
  case h_1 id hid =>
    unfold lookup_heur_list at hid
    simp [heur_dissect_lua, hL, hln, hP, lua_settop, lua_rawgeti_registry, lua_push, lua_index,
      stackpos, he, hid, wslua_get_table, wslua_get_field, report_failure]

/-- The heuristic call when the entry is present but not a function (line 190). -/
theorem heur_dissect_lua_not_function (env : Env) (W : World) (Ls : lua_State) (tvb : tvbuff_t)
    (pi : packet_info) (tree : proto_tree) (ln P : String) (e : LuaValue)
    (hL : W.L = some Ls) (hln : pi.heur_list_name = some ln) (hP : pi.current_proto = some P)
    (he : lookup_heuristic W Ls ln P = some e) (hnil : e ≠ LuaValue.nil)
    (hnf : e.isfunction = false) :
    ∃ W1, heur_dissect_lua env W (some tvb) (some pi) tree = Except.ok (W1, some pi, false)
      ∧ W1.trace = W.trace ++ [Event.report_failure
          ("internal error in heur_dissect_lua: " ++ P ++ " heuristic dissector is not a function")]
      ∧ W1.handles = W.handles := by
  unfold lookup_heuristic at he
  split at he
  case h_2 => exact absurd he (by simp)
  case h_1 id hid =>
    unfold lookup_heur_list at hid
    cases e <;>
      simp_all [heur_dissect_lua, lua_settop, lua_rawgeti_registry, lua_push, lua_index,
        stackpos, wslua_get_table, wslua_get_field, report_failure, lua_remove, lua_isfunction,
        LuaValue.isfunction]

theorem run_cfunction_handles (env : Env) (W : World) (c : CFunction) (args : List LuaValue) :
    (run_cfunction env W c args).handles = W.handles := by
  cases c <;> rfl

theorem pcall_error_handles (env : Env) (W : World) (Ls : lua_State) (handler : Option LuaValue)
    (msg : LuaValue) : (pcall_error env W Ls handler msg).1.handles = W.handles := by
  unfold pcall_error
  split
  · exact run_cfunction_handles env W _ _
  · rfl

theorem lua_pcall_handles (env : Env) (W : World) (Ls : lua_State) (nargs nresults : Nat)
    (errfunc : Int) :
    (lua_pcall env W Ls nargs nresults errfunc).1.handles
      = W.handles ++ (pcall_created env Ls nargs).map Handle.fresh := by
  unfold lua_pcall pcall_created
  dsimp only
  generalize (if errfunc = 0 then none else lua_index Ls errfunc) = handler
  cases (Ls.stack.drop nargs).head? with
  | none => simp [pcall_error_handles]
  | some v =>
    cases v with
    | function f =>
      dsimp only
      split
      · simp [guest_effects_handles]
      · simp [pcall_error_handles, guest_effects_handles]
    | cfunction c => simp [run_cfunction_handles]
    | _ => simp [pcall_error_handles]

/-- Every return of `dissect_lua` has registered `lua_frame_end` and has only
added handles that are on their outstanding arrays. -/
theorem dissect_lua_path (env : Env) (W : World) (tvb : tvbuff_t) (pinfo : packet_info)
    (tree : proto_tree) (W1 : World) (pinfo1 : packet_info) (n : Int)
    (h : dissect_lua env W tvb pinfo tree = Except.ok (W1, pinfo1, n)) :
    pinfo1 = register_frame_end_routine pinfo FrameEndRoutine.lua_frame_end
      ∧ ∃ new, W1.handles = W.handles ++ new ∧ ∀ h ∈ new, h.outstanding = true := by
  unfold dissect_lua at h
  cases hL : W.L with
  | none => simp [hL, proto_tree_add_text] at h
  | some Ls =>
    simp only [proto_tree_add_text, hL] at h
    split at h
    · simp at h
    · simp only [Except.ok.injEq, Prod.mk.injEq] at h
      obtain ⟨hW, hp, -⟩ := h
      subst hW hp
      refine ⟨rfl, ?_⟩
      dsimp only
      split_ifs
      · simp only [proto_tree_add_expert_format, lua_pcall_handles, push_TreeItem, push_Pinfo,
          push_Tvb, track, List.append_assoc]
        exact ⟨_, rfl, by simp [Handle.fresh]⟩
      · simp only [lua_pcall_handles, push_TreeItem, push_Pinfo, push_Tvb, track,
          List.append_assoc]
        exact ⟨_, rfl, by simp [Handle.fresh]⟩
      · simp only [lua_pcall_handles, push_TreeItem, push_Pinfo, push_Tvb, track,
          List.append_assoc]
        exact ⟨_, rfl, by simp [Handle.fresh]⟩
      · exact ⟨[], by simp [proto_tree_add_expert_format], by simp⟩

/-- Every return of `heur_dissect_lua` has only added handles that are on their
outstanding arrays, and has registered `lua_frame_end` if it added any. -/
theorem heur_dissect_lua_path (env : Env) (W : World) (tvb : Option tvbuff_t)
    (pinfo : Option packet_info) (tree : proto_tree) (W1 : World)
    (pinfo1 : Option packet_info) (b : Bool)
    (h : heur_dissect_lua env W tvb pinfo tree = Except.ok (W1, pinfo1, b)) :
    (∃ new, W1.handles = W.handles ++ new ∧ ∀ h ∈ new, h.outstanding = true)
      ∧ (W.handles.length < W1.handles.length →
          ∃ pi, pinfo1
            = some (register_frame_end_routine pi FrameEndRoutine.lua_frame_end)) := by
  unfold heur_dissect_lua at h
  dsimp only at h
  split at h
  · split at h
    · simp at h
    · split at h
      · simp at h
      · simp only [Except.ok.injEq, Prod.mk.injEq] at h
        obtain ⟨hW, -, -⟩ := h
        subst hW
        exact ⟨⟨[], by simp [report_failure], by simp⟩, by simp [report_failure]⟩
      · split at h
        · simp at h
        · simp only [Except.ok.injEq, Prod.mk.injEq] at h
          obtain ⟨hW, -, -⟩ := h
          subst hW
          exact ⟨⟨[], by simp [report_failure], by simp⟩, by simp [report_failure]⟩
        · split at h
          · simp only [Except.ok.injEq, Prod.mk.injEq] at h
            obtain ⟨hW, -, -⟩ := h
            subst hW
            exact ⟨⟨[], by simp [report_failure], by simp⟩, by simp [report_failure]⟩
          · simp only [Except.ok.injEq, Prod.mk.injEq] at h
            obtain ⟨hW, hp, -⟩ := h
            subst hW hp
            refine ⟨?_, fun _ => ⟨_, rfl⟩⟩
            dsimp only
            split_ifs
            · simp only [report_failure, lua_pcall_handles, push_TreeItem, push_Pinfo,
                push_Tvb, track, proto_tree_add_text, List.append_assoc]
              exact ⟨_, rfl, by simp [Handle.fresh]⟩
            · simp only [lua_pcall_handles, push_TreeItem, push_Pinfo, push_Tvb, track,
                proto_tree_add_text, List.append_assoc]
              exact ⟨_, rfl, by simp [Handle.fresh]⟩
            · simp only [report_failure, lua_pcall_handles, push_TreeItem, push_Pinfo,
                push_Tvb, track, proto_tree_add_text, List.append_assoc]
              exact ⟨_, rfl, by simp [Handle.fresh]⟩
  · simp only [Except.ok.injEq, Prod.mk.injEq] at h
    obtain ⟨hW, -, -⟩ := h
    subst hW
    exact ⟨⟨[], by simp [report_failure], by simp⟩, by simp [report_failure]⟩

theorem lua_frame_end_handles (W : World) :
    (lua_frame_end W).handles
      = W.handles.map fun h =>
          if h.outstanding = true then { h with expired := true, outstanding := false } else h := by
  simp only [lua_frame_end, clear_outstanding, List.map_map]
  apply List.map_congr_left
  intro h _
  rcases h with ⟨k, e, o⟩
  cases k <;> cases o <;> simp

/-- The state of the handles after position `n`: each is expired or still on
its outstanding array. -/
theorem lua_frame_end_expires (W : World) (n : Nat)
    (hS : ∀ h ∈ W.handles.drop n, h.expired = true ∨ h.outstanding = true) :
    ∀ h ∈ (lua_frame_end W).handles.drop n, h.expired = true := by
  intro h hh
  rw [lua_frame_end_handles, ← List.map_drop, List.mem_map] at hh
  obtain ⟨h0, hmem, rfl⟩ := hh
  rcases hS h0 hmem with he | ho
  · split <;> simp [he]
  · simp [ho]

theorem call_frame_end_routines_keeps (rs : List FrameEndRoutine) (W : World) (n : Nat)
    (hS : ∀ h ∈ W.handles.drop n, h.expired = true ∨ h.outstanding = true) :
    ∀ h ∈ (rs.foldl (fun W r => match r with
        | FrameEndRoutine.lua_frame_end => lua_frame_end W
        | FrameEndRoutine.other _ => W) W).handles.drop n,
      h.expired = true ∨ h.outstanding = true := by
  induction rs generalizing W with
  | nil => simpa using hS
  | cons r rs ih =>
    rw [List.foldl_cons]
    apply ih
    cases r with
    | lua_frame_end =>
      intro h hh
      exact Or.inl (lua_frame_end_expires W n hS h hh)
    | other id => exact hS

theorem call_frame_end_routines_expires (W : World) (pinfo : packet_info) (n : Nat)
    (hS : ∀ h ∈ W.handles.drop n, h.expired = true ∨ h.outstanding = true) :
    ∀ h ∈ (call_frame_end_routines W
        (register_frame_end_routine pinfo FrameEndRoutine.lua_frame_end)).handles.drop n,
      h.expired = true := by
  unfold call_frame_end_routines register_frame_end_routine
  rw [List.foldl_append]
  simp only [List.foldl_cons, List.foldl_nil]
  exact lua_frame_end_expires _ n (call_frame_end_routines_keeps _ W n hS)

/-! ## Exact dispatch: the consumed-byte count -/

/-- C1 (as stated, refuted): the dissector registered for `big` completes
without error and returns the negative integer -2147483649, yet `dissect_lua`
does not return -2147483649: its result is a C `int`, and the conversion
yields 2147483647. -/
theorem dissect_lua_truncates_below_gint :
    lookup_dissector demo_world demo_state "big" = some (LuaValue.function 3)
      ∧ (∀ args, (demo_env.call 3 args).outcome
          = CallOutcome.returns [LuaValue.number (-2147483649)])
      ∧ (¬ ∃ W1 pinfo1, dissect_lua demo_env demo_world demo_tvb (demo_pinfo "big") none
          = Except.ok (W1, pinfo1, -2147483649))
      ∧ (∃ W1 pinfo1, dissect_lua demo_env demo_world demo_tvb (demo_pinfo "big") none
          = Except.ok (W1, pinfo1, 2147483647)) := by
  obtain ⟨W1, h1, -⟩ := dissect_lua_returns demo_env demo_world demo_state demo_tvb
    (demo_pinfo "big") none "big" 3 [LuaValue.number (-2147483649)] rfl rfl rfl rfl
  have hv : toGint (-2147483649) = 2147483647 := by decide
  simp only [List.head?_cons, Option.getD_some, hv] at h1
  refine ⟨rfl, fun _ => rfl, ?_, ⟨W1, _, h1⟩⟩
  rintro ⟨W2, p2, h2⟩
  rw [h1] at h2
  simp at h2

/-- C1 (amended): for every protocol name `P` whose entry in the exact-match
dissector table is a function that completes without error and returns an
integer `v`, where either `0 ≤ v ≤ buffer length` or `-2^31 ≤ v < 0` (so that
`v` fits the C `int` that `dissect_lua` returns), `dissect_lua` called for a
packet whose current protocol is `P` returns exactly `v`; a negative value is
passed through unchanged. -/
theorem dissect_lua_returns_reported_count (env : Env) (W : World) (Ls : lua_State)
    (tvb : tvbuff_t) (pinfo : packet_info) (tree : proto_tree) (P : String) (f : Nat) (v : Int)
    (hL : W.L = some Ls) (hP : pinfo.current_proto = some P)
    (hf : lookup_dissector W Ls P = some (LuaValue.function f))
    (hret : ∀ args, ∃ rest,
      (env.call f args).outcome = CallOutcome.returns (LuaValue.number v :: rest))
    (hv : (0 ≤ v ∧ v ≤ tvb_length tvb) ∨ (-2147483648 ≤ v ∧ v < 0)) :
    ∃ W1 pinfo1, dissect_lua env W tvb pinfo tree = Except.ok (W1, pinfo1, v) := by
  obtain ⟨rest, hr⟩ := hret [LuaValue.userdata W.handles.length,
    LuaValue.userdata (W.handles.length + 1), LuaValue.userdata (W.handles.length + 2)]
  obtain ⟨W1, h1, -⟩ := dissect_lua_returns env W Ls tvb pinfo tree P f _ hL hP hf hr
  have hfit : toGint v = v := by
    have := tvb.fits
    unfold tvb_length at hv
    apply toGint_of_range <;> omega
  simp only [List.head?_cons, Option.getD_some, hfit] at h1
  exact ⟨W1, _, h1⟩

/-- C1 witness: the dissector registered for `foo` returns -5 and so does
`dissect_lua`. -/
theorem dissect_lua_returns_reported_count_witness :
    ∃ W1 pinfo1, dissect_lua demo_env demo_world demo_tvb (demo_pinfo "foo") none
      = Except.ok (W1, pinfo1, -5) :=
  dissect_lua_returns_reported_count demo_env demo_world demo_state demo_tvb (demo_pinfo "foo")
    none "foo" 1 (-5) rfl rfl rfl (fun _ => ⟨[], rfl⟩) (Or.inr (by decide))

/-! ## Exact dispatch: failures -/

/-- C2: when `dissect_lua` fails, either because the exact-match table has no
function registered for the packet's current protocol name or because the
registered function raises a runtime error, it returns the full buffer length
(`tvb_length` of the buffer) and emits exactly one diagnostic, the dissection
error added with `ei_lua_error`. -/
theorem dissect_lua_failure_consumes_buffer (env : Env) (W : World) (Ls : lua_State)
    (tvb : tvbuff_t) (pinfo : packet_info) (tree : proto_tree) (P : String)
    (hL : W.L = some Ls) (hP : pinfo.current_proto = some P)
    (hfail : (∃ e, lookup_dissector W Ls P = some e ∧ e.isfunction = false)
      ∨ (∃ f, lookup_dissector W Ls P = some (LuaValue.function f)
          ∧ ∀ args, ∃ msg, (env.call f args).outcome = CallOutcome.error msg)) :
    ∃ W1 pinfo1 text, dissect_lua env W tvb pinfo tree
        = Except.ok (W1, pinfo1, (tvb_length tvb : Int))
      ∧ diagnostics (emitted W W1) = [Event.expert text] := by
  rcases hfail with ⟨e, he, hnf⟩ | ⟨f, hf, herr⟩
  · obtain ⟨W1, h1, ht, -⟩ := dissect_lua_not_function env W Ls tvb pinfo tree P e hL hP he hnf
    exact ⟨W1, _, _, h1, by rw [emitted_append W W1 _ ht]; rfl⟩
  · obtain ⟨msg, hr⟩ := herr [LuaValue.userdata W.handles.length,
      LuaValue.userdata (W.handles.length + 1), LuaValue.userdata (W.handles.length + 2)]
    obtain ⟨W1, h1, ht⟩ := dissect_lua_error env W Ls tvb pinfo tree P f msg hL hP hf hr
    exact ⟨W1, _, _, h1, by rw [emitted_append W W1 _ ht]; rfl⟩

/-- C2 witness: the dissector registered for `bar` raises an error; the call
returns the 100 bytes of the buffer and emits one dissection error. -/
theorem dissect_lua_failure_consumes_buffer_witness :
    ∃ W1 pinfo1 text, dissect_lua demo_env demo_world demo_tvb (demo_pinfo "bar") none
        = Except.ok (W1, pinfo1, (tvb_length demo_tvb : Int))
      ∧ diagnostics (emitted demo_world W1) = [Event.expert text] :=
  dissect_lua_failure_consumes_buffer demo_env demo_world demo_state demo_tvb (demo_pinfo "bar")
    none "bar" rfl rfl (Or.inr ⟨2, rfl, fun _ => ⟨LuaValue.string "boom", rfl⟩⟩)


/-! ## Heuristic dispatch -/

/-- C3: for every pair (list name, protocol name) whose entry in the nested
heuristic table is a function that completes without error, `heur_dissect_lua`
returns exactly the boolean the function returned, and returns false when the
function returned nothing or nil; in both cases no diagnostic is emitted. -/
theorem heur_dissect_lua_returns_guest_boolean (env : Env) (W : World) (Ls : lua_State)
    (tvb : tvbuff_t) (pi : packet_info) (tree : proto_tree) (ln P : String) (f : Nat) (b : Bool)
    (hL : W.L = some Ls) (hln : pi.heur_list_name = some ln) (hP : pi.current_proto = some P)
    (hf : lookup_heuristic W Ls ln P = some (LuaValue.function f))
    (hret : ∀ args, ∃ vals, (env.call f args).outcome = CallOutcome.returns vals
      ∧ (vals.head? = some (LuaValue.boolean b)
          ∨ ((vals = [] ∨ vals.head? = some LuaValue.nil) ∧ b = false))) :
    ∃ W1 pinfo1, heur_dissect_lua env W (some tvb) (some pi) tree = Except.ok (W1, pinfo1, b)
      ∧ diagnostics (emitted W W1) = [] := by
  obtain ⟨vals, hr, hb⟩ := hret [LuaValue.userdata W.handles.length,
    LuaValue.userdata (W.handles.length + 1), LuaValue.userdata (W.handles.length + 2)]
  obtain ⟨W1, h1, ht⟩ := heur_dissect_lua_function env W Ls tvb pi tree ln P f hL hln hP hf
  rw [hr] at h1 ht
  rcases hb with hb | ⟨hb | hb, rfl⟩
  · simp only [hb, Option.getD_some, List.append_nil] at h1 ht
    exact ⟨W1, _, h1, by rw [emitted_append W W1 _ ht]; rfl⟩
  · subst hb
    simp only [List.head?_nil, Option.getD_none, List.append_nil] at h1 ht
    exact ⟨W1, _, h1, by rw [emitted_append W W1 _ ht]; rfl⟩
  · simp only [hb, Option.getD_some, List.append_nil] at h1 ht
    exact ⟨W1, _, h1, by rw [emitted_append W W1 _ ht]; rfl⟩

/-- C3 witness: the heuristic dissector registered for (`udp`, `foo`) returns
true, and so does `heur_dissect_lua`, without a diagnostic. -/
theorem heur_dissect_lua_returns_guest_boolean_witness :
    ∃ W1 pinfo1, heur_dissect_lua demo_env demo_world (some demo_tvb) (some (demo_pinfo "foo"))
        none = Except.ok (W1, pinfo1, true)
      ∧ diagnostics (emitted demo_world W1) = [] :=
  heur_dissect_lua_returns_guest_boolean demo_env demo_world demo_state demo_tvb
    (demo_pinfo "foo") none "udp" "foo" 4 true rfl rfl rfl rfl
    (fun _ => ⟨[LuaValue.boolean true], rfl, Or.inl rfl⟩)

/-- C4: every call of `heur_dissect_lua` that hits a failure case (packet
buffer, metadata, list name or protocol name missing; no sub-table for the
list name; no entry for the protocol name in that sub-table; the entry is not
a function; the function raises a runtime error; the function returns a value
that is neither boolean nor nil) returns false and emits exactly one
diagnostic, through `report_failure`. -/
theorem heur_dissect_lua_failure_reports_once (env : Env) (W : World)
    (tvb : Option tvbuff_t) (pinfo : Option packet_info) (tree : proto_tree)
    (hfail :
      (tvb = none ∨ pinfo = none ∨ pinfo.bind packet_info.heur_list_name = none
        ∨ pinfo.bind packet_info.current_proto = none)
      ∨ ∃ Ls t pi ln P, W.L = some Ls ∧ tvb = some t ∧ pinfo = some pi
          ∧ pi.heur_list_name = some ln ∧ pi.current_proto = some P
          ∧ ((∃ e, lookup_heur_list W Ls ln = some e ∧ ∀ id, e ≠ LuaValue.table id)
            ∨ lookup_heuristic W Ls ln P = some LuaValue.nil
            ∨ (∃ e, lookup_heuristic W Ls ln P = some e ∧ e ≠ LuaValue.nil
                ∧ e.isfunction = false)
            ∨ (∃ f, lookup_heuristic W Ls ln P = some (LuaValue.function f)
                ∧ ∀ args, ∃ msg, (env.call f args).outcome = CallOutcome.error msg)
            ∨ (∃ f, lookup_heuristic W Ls ln P = some (LuaValue.function f)
                ∧ ∀ args, ∃ v rest,
                    (env.call f args).outcome = CallOutcome.returns (v :: rest)
                    ∧ v ≠ LuaValue.nil ∧ ∀ b, v ≠ LuaValue.boolean b))) :
    ∃ W1 pinfo1 text, heur_dissect_lua env W tvb pinfo tree = Except.ok (W1, pinfo1, false)
      ∧ diagnostics (emitted W W1) = [Event.report_failure text] := by
  rcases hfail with hnull | ⟨Ls, t, pi, ln, P, hL, rfl, rfl, hln, hP, hcase⟩
  · refine ⟨_, _, "internal error in heur_dissect_lua: NULL packet info",
      heur_dissect_lua_null env W tvb pinfo tree hnull, ?_⟩
    simp [emitted, report_failure, diagnostics, Event.is_diagnostic]
  · rcases hcase with ⟨e, he, hne⟩ | he | ⟨e, he, hnil, hnf⟩ | ⟨f, hf, herr⟩ | ⟨f, hf, hbad⟩
    · obtain ⟨W1, h1, ht, -⟩ := heur_dissect_lua_no_list env W Ls t pi tree ln P e hL hln hP he hne
      exact ⟨W1, _, _, h1, by rw [emitted_append W W1 _ ht]; rfl⟩
    · obtain ⟨W1, h1, ht, -⟩ := heur_dissect_lua_no_entry env W Ls t pi tree ln P hL hln hP he
      exact ⟨W1, _, _, h1, by rw [emitted_append W W1 _ ht]; rfl⟩
    · obtain ⟨W1, h1, ht, -⟩ :=
        heur_dissect_lua_not_function env W Ls t pi tree ln P e hL hln hP he hnil hnf
      exact ⟨W1, _, _, h1, by rw [emitted_append W W1 _ ht]; rfl⟩
    · obtain ⟨msg, hr⟩ := herr [LuaValue.userdata W.handles.length,
        LuaValue.userdata (W.handles.length + 1), LuaValue.userdata (W.handles.length + 2)]
      obtain ⟨W1, h1, ht⟩ := heur_dissect_lua_function env W Ls t pi tree ln P f hL hln hP hf
      rw [hr] at h1 ht
      dsimp only at h1 ht
      exact ⟨W1, _, _, h1, by rw [emitted_append W W1 _ ht]; rfl⟩
    · obtain ⟨v, rest, hr, hnil, hnb⟩ := hbad [LuaValue.userdata W.handles.length,
        LuaValue.userdata (W.handles.length + 1), LuaValue.userdata (W.handles.length + 2)]
      obtain ⟨W1, h1, ht⟩ := heur_dissect_lua_function env W Ls t pi tree ln P f hL hln hP hf
      rw [hr] at h1 ht
      simp only [List.head?_cons, Option.getD_some] at h1 ht
      cases v with
      | nil => exact absurd rfl hnil
      | boolean b => exact absurd rfl (hnb b)
      | _ => exact ⟨W1, _, _, h1, by rw [emitted_append W W1 _ ht]; rfl⟩

/-- C4 witness: the heuristic dissector registered for (`udp`, `str`) returns a
string; the call returns false and reports one failure. -/
theorem heur_dissect_lua_failure_reports_once_witness :
    ∃ W1 pinfo1 text, heur_dissect_lua demo_env demo_world (some demo_tvb)
        (some (demo_pinfo "str")) none = Except.ok (W1, pinfo1, false)
      ∧ diagnostics (emitted demo_world W1) = [Event.report_failure text] :=
  heur_dissect_lua_failure_reports_once demo_env demo_world (some demo_tvb)
    (some (demo_pinfo "str")) none
    (Or.inr ⟨demo_state, demo_tvb, demo_pinfo "str", "udp", "str", rfl, rfl, rfl, rfl, rfl,
      Or.inr (Or.inr (Or.inr (Or.inr ⟨6, rfl, fun _ =>
        ⟨LuaValue.string "x", [], rfl, by decide, fun _ h => by cases h⟩⟩)))⟩)

/-- Exact dispatch always returns when the engine is present and the registry
slot of the exact-match table holds a table. -/
theorem dissect_lua_total (env : Env) (W : World) (Ls : lua_State) (tvb : tvbuff_t)
    (pinfo : packet_info) (tree : proto_tree) (id : Nat) (t : LuaTable)
    (hL : W.L = some Ls)
    (hreg : rawget Ls.registry W.lua_dissectors_table_ref = LuaValue.table id)
    (ht : table_entries Ls.tables id = some t) :
    ∃ W1 pinfo1 n, dissect_lua env W tvb pinfo tree = Except.ok (W1, pinfo1, n) := by
  cases hP : pinfo.current_proto <;>
    simp [dissect_lua, hL, hP, proto_tree_add_text, lua_settop, lua_rawgeti_registry,
      lua_pushstring, lua_push, lua_gettable, lua_index, stackpos, hreg, luaV_gettable, ht]

/-! ## Handle expiry at frame end -/

/-- C5: every handle created during a packet's dispatch is expired at frame
completion. On every return of `dissect_lua`, and on every return of
`heur_dissect_lua` on which a handle was created, including the returns after
the guest function raised an error, `lua_frame_end` is registered as a
frame-end routine of the packet; `lua_frame_end` clears the outstanding
handles of all eight kinds, so that after it has run, alone or among the
routines the host runs at frame completion, no handle created for the packet
is unexpired. -/
theorem handles_expire_at_frame_end (env : Env) (W W1 : World) (tvb : tvbuff_t)
    (htvb : Option tvbuff_t) (pinfo : packet_info) (hpinfo : Option packet_info)
    (tree : proto_tree) (pinfo1 : packet_info) (n : Int) (b : Bool)
    (h : dissect_lua env W tvb pinfo tree = Except.ok (W1, pinfo1, n)
      ∨ (heur_dissect_lua env W htvb hpinfo tree = Except.ok (W1, some pinfo1, b)
          ∧ W.handles.length < W1.handles.length)) :
    FrameEndRoutine.lua_frame_end ∈ pinfo1.frame_end_routines
      ∧ (∀ h ∈ (lua_frame_end W1).handles, h.outstanding = false)
      ∧ (∀ h ∈ (lua_frame_end W1).handles.drop W.handles.length, h.expired = true)
      ∧ (∀ h ∈ (call_frame_end_routines W1 pinfo1).handles.drop W.handles.length,
          h.expired = true) := by
  have hreg : ∃ pi, pinfo1 = register_frame_end_routine pi FrameEndRoutine.lua_frame_end := by
    rcases h with h | ⟨h, hlen⟩
    · exact ⟨pinfo, (dissect_lua_path env W tvb pinfo tree W1 pinfo1 n h).1⟩
    · obtain ⟨pi, hpi⟩ := (heur_dissect_lua_path env W htvb hpinfo tree W1 _ b h).2 hlen
      exact ⟨pi, Option.some.inj hpi⟩
  have hnew : ∃ new, W1.handles = W.handles ++ new ∧ ∀ h ∈ new, h.outstanding = true := by
    rcases h with h | ⟨h, -⟩
    · exact (dissect_lua_path env W tvb pinfo tree W1 pinfo1 n h).2
    · exact (heur_dissect_lua_path env W htvb hpinfo tree W1 _ b h).1
  obtain ⟨pi, rfl⟩ := hreg
  obtain ⟨new, hh, hout⟩ := hnew
  have hS : ∀ h ∈ W1.handles.drop W.handles.length, h.expired = true ∨ h.outstanding = true := by
    intro h hmem
    rw [hh, List.drop_left] at hmem
    exact Or.inr (hout h hmem)
  refine ⟨by simp [register_frame_end_routine], ?_, lua_frame_end_expires W1 _ hS,
    call_frame_end_routines_expires W1 pi _ hS⟩
  intro h hmem
  rw [lua_frame_end_handles, List.mem_map] at hmem
  obtain ⟨h0, -, rfl⟩ := hmem
  split
  · rfl
  · rename_i hno
    simpa using hno

/-- C5 witness: dispatching a `foo` packet creates four handles (buffer,
metadata, tree cursor, and a buffer range created by the script); the call
registers `lua_frame_end`, after which all four are expired. -/
theorem handles_expire_at_frame_end_witness :
    ∃ W1 pinfo1, dissect_lua demo_env demo_world demo_tvb (demo_pinfo "foo") none
        = Except.ok (W1, pinfo1, -5)
      ∧ W1.handles.length = 4
      ∧ (FrameEndRoutine.lua_frame_end ∈ pinfo1.frame_end_routines
        ∧ (∀ h ∈ (lua_frame_end W1).handles, h.outstanding = false)
        ∧ (∀ h ∈ (lua_frame_end W1).handles.drop demo_world.handles.length, h.expired = true)
        ∧ (∀ h ∈ (call_frame_end_routines W1 pinfo1).handles.drop demo_world.handles.length,
            h.expired = true)) :=
  have h1 : dissect_lua demo_env demo_world demo_tvb (demo_pinfo "foo") none
      = Except.ok
          ((match dissect_lua demo_env demo_world demo_tvb (demo_pinfo "foo") none with
            | Except.ok r => r.1
            | Except.error _ => demo_world),
           register_frame_end_routine (demo_pinfo "foo") FrameEndRoutine.lua_frame_end, -5) := by
    rfl
  ⟨_, _, h1, by rfl,
    handles_expire_at_frame_end demo_env demo_world _ demo_tvb none (demo_pinfo "foo") none none
      _ (-5) false (Or.inl h1)⟩


/-! ## The plugin list -/

theorem link_at_tail_descriptions (p q : wslua_plugin) :
    (p.link_at_tail q).descriptions = p.descriptions ++ q.descriptions := by
  induction p with
  | last n v f => rfl
  | cons n v f next ih => simp [wslua_plugin.link_at_tail, wslua_plugin.descriptions, ih]

theorem wslua_add_plugin_descriptions (W : World) (name version filename : String) :
    wslua_plugins_get_descriptions (wslua_add_plugin W name version filename)
      = wslua_plugins_get_descriptions W ++ [⟨name, version, "lua script", filename⟩] := by
  unfold wslua_add_plugin wslua_plugins_get_descriptions
  cases W.wslua_plugin_list with
  | none => rfl
  | some p => simp [link_at_tail_descriptions, wslua_plugin.descriptions]

/-! ## Loading one script -/

theorem push_args_stack (vals : List String) (Ls : lua_State) :
    (vals.foldl (fun Ls argvalue => lua_pushstring Ls (some argvalue)) Ls).stack
      = (vals.map LuaValue.string).reverse ++ Ls.stack := by
  induction vals generalizing Ls with
  | nil => simp
  | cons v vals ih => rw [List.foldl_cons, ih]; simp [lua_pushstring, lua_push]

theorem track_fold_eq (ks : List HandleKind) (W : World) :
    ks.foldl (fun W k => (track W k).1) W
      = { W with handles := W.handles ++ ks.map Handle.fresh } := by
  induction ks generalizing W with
  | nil => simp
  | cons k ks ih => rw [List.foldl_cons, ih]; simp [track]

theorem guest_effects_eq (W : World) (f : Nat) (args : List LuaValue) (r : CallResult) :
    guest_effects W f args r
      = { W with trace := W.trace ++ [Event.call f args],
                 handles := W.handles ++ r.created.map Handle.fresh } := by
  simp [guest_effects, track_fold_eq]

theorem lua_index_one (Ls : lua_State) : lua_index Ls 1 = Ls.stack.getLast? := by
  unfold lua_index stackpos
  cases h : Ls.stack with
  | nil => simp
  | cons a l =>
    simp [List.getLast?_eq_getElem?]

/-- A script that opens and compiles is run exactly once and the load succeeds,
however the script body ends. -/
theorem lua_load_script_compiled (env : Env) (W : World) (Ls : lua_State) (filename : String)
    (file_count : Int) (file : FILE) (f : Nat)
    (hopen : env.ws_fopen filename = Except.ok file) (hL : W.L = some Ls)
    (hstatus : file.load_status = 0) (hchunk : file.load_value = LuaValue.function f) :
    ∃ W1 args, lua_load_script env W filename file_count = Except.ok (W1, true)
      ∧ W1.L ≠ none ∧ W1.wslua_plugin_list = W.wslua_plugin_list
      ∧ guest_calls (emitted W W1) = [Event.call f args] := by
  by_cases hfc : file_count > 0
  · cases hr : (env.call f ((ex_opt_pending W.ex_opts
        ("lua_script" ++ toString file_count)).map LuaValue.string)).outcome <;>
    simp [lua_load_script, hopen, hL, hstatus, hchunk, hfc, lua_script_push_args, lua_settop,
      lua_push, lua_pcall, push_args_stack, hr, pcall_error, lua_index_one, fclose,
      emitted, guest_calls, guest_effects_eq, run_cfunction, lua_main_error_handler,
      report_failure, Event.is_call, List.filter_cons]
  · cases hr : (env.call f []).outcome <;>
    simp [lua_load_script, hopen, hL, hstatus, hchunk, hfc, lua_settop,
      lua_push, lua_pcall, hr, pcall_error, lua_index_one, fclose,
      emitted, guest_calls, guest_effects_eq, run_cfunction, lua_main_error_handler,
      report_failure, Event.is_call, List.filter_cons]

/-- A script that does not open is reported and not run. -/
theorem lua_load_script_open_failure (env : Env) (W : World) (filename : String)
    (file_count : Int) (errno : Int) (hopen : env.ws_fopen filename = Except.error errno) :
    lua_load_script env W filename file_count
      = Except.ok (report_open_failure W filename errno, false) := by
  simp [lua_load_script, hopen]

/-- A script that opens but does not compile is reported once, with its path,
and not run. -/
theorem lua_load_script_compile_failure (env : Env) (W : World) (Ls : lua_State)
    (filename : String) (file_count : Int) (file : FILE)
    (hopen : env.ws_fopen filename = Except.ok file) (hL : W.L = some Ls)
    (hstatus : file.load_status ≠ 0) :
    ∃ Ls1 pre post, lua_load_script env W filename file_count
      = Except.ok ({ fclose (report_failure W (pre ++ filename ++ post)) with L := some Ls1 },
          false) := by
  by_cases h3 : file.load_status = LUA_ERRSYNTAX
  · refine ⟨(lua_tostring env (lua_push (lua_push (lua_settop Ls 0)
        (LuaValue.cfunction CFunction.lua_main_error_handler)) file.load_value) (-1)).1,
      "Lua: syntax error during precompilation of `",
      "':\n" ++ fmt_s (lua_tostring env (lua_push (lua_push (lua_settop Ls 0)
        (LuaValue.cfunction CFunction.lua_main_error_handler)) file.load_value) (-1)).2, ?_⟩
    simp [lua_load_script, hopen, hL, h3, LUA_ERRSYNTAX, String.append_assoc]
  · by_cases h4 : file.load_status = LUA_ERRMEM
    · refine ⟨lua_push (lua_push (lua_settop Ls 0)
        (LuaValue.cfunction CFunction.lua_main_error_handler)) file.load_value,
        "Lua: memory allocation error during execution of ", "", ?_⟩
      simp [lua_load_script, hopen, hL, h4, LUA_ERRSYNTAX, LUA_ERRMEM]
    · refine ⟨lua_push (lua_push (lua_settop Ls 0)
        (LuaValue.cfunction CFunction.lua_main_error_handler)) file.load_value,
        "Lua: unknown error during execution of ", ": " ++ toString file.load_status, ?_⟩
      simp [lua_load_script, hopen, hL, hstatus, h3, h4, String.append_assoc]

/-- C9: `lua_load_script` executes the script body only if the file opens and
compilation succeeds. When the file cannot be opened, or compilation fails
(syntax error, out of memory, or any other status), it emits exactly one
diagnostic naming the script path, does not execute the script and returns
failure; when compilation succeeds it executes the script, once, and returns
success, whether the script body returns or raises an error. -/
theorem lua_load_script_runs_only_compiled (env : Env) (W : World) (filename : String)
    (file_count : Int) :
    (∀ errno, env.ws_fopen filename = Except.error errno →
      ∃ W1, lua_load_script env W filename file_count = Except.ok (W1, false)
        ∧ diagnostics (emitted W W1) = [Event.report_open_failure filename errno]
        ∧ guest_calls (emitted W W1) = [])
    ∧ (∀ Ls file, W.L = some Ls → env.ws_fopen filename = Except.ok file →
        file.load_status ≠ 0 →
        ∃ W1 pre post, lua_load_script env W filename file_count = Except.ok (W1, false)
          ∧ diagnostics (emitted W W1) = [Event.report_failure (pre ++ filename ++ post)]
          ∧ guest_calls (emitted W W1) = [])
    ∧ (∀ Ls file f, W.L = some Ls → env.ws_fopen filename = Except.ok file →
        file.load_status = 0 → file.load_value = LuaValue.function f →
        ∃ W1 args, lua_load_script env W filename file_count = Except.ok (W1, true)
          ∧ guest_calls (emitted W W1) = [Event.call f args]) := by
  refine ⟨fun errno hopen => ?_, fun Ls file hL hopen hstatus => ?_,
    fun Ls file f hL hopen hstatus hchunk => ?_⟩
  · refine ⟨_, lua_load_script_open_failure env W filename file_count errno hopen, ?_, ?_⟩ <;>
      simp [emitted, report_open_failure, diagnostics, guest_calls, Event.is_diagnostic,
        Event.is_call]
  · obtain ⟨Ls1, pre, post, h1⟩ :=
      lua_load_script_compile_failure env W Ls filename file_count file hopen hL hstatus
    refine ⟨_, pre, post, h1, ?_, ?_⟩ <;>
      simp [emitted, fclose, report_failure, diagnostics, guest_calls, Event.is_diagnostic,
        Event.is_call]
  · obtain ⟨W1, args, h1, -, -, hc⟩ :=
      lua_load_script_compiled env W Ls filename file_count file f hopen hL hstatus hchunk
    exact ⟨W1, args, h1, hc⟩

/-- C9 witness: on the concrete engine a missing file and a file with a syntax
error are reported once and not run, and the script `plugins/sub/c.lua`, whose
body raises an error, is run and loads successfully. -/
theorem lua_load_script_runs_only_compiled_witness :
    (∃ W1, lua_load_script demo_env demo_world "plugins/none.lua" 0 = Except.ok (W1, false)
        ∧ diagnostics (emitted demo_world W1)
            = [Event.report_open_failure "plugins/none.lua" 2]
        ∧ guest_calls (emitted demo_world W1) = [])
    ∧ (∃ W1 pre post, lua_load_script demo_env demo_world "plugins/bad.lua" 0
          = Except.ok (W1, false)
        ∧ diagnostics (emitted demo_world W1)
            = [Event.report_failure (pre ++ "plugins/bad.lua" ++ post)]
        ∧ guest_calls (emitted demo_world W1) = [])
    ∧ (∃ W1 args, lua_load_script demo_env demo_world "plugins/sub/c.lua" 0
          = Except.ok (W1, true)
        ∧ guest_calls (emitted demo_world W1) = [Event.call 2 args]) :=
  ⟨(lua_load_script_runs_only_compiled demo_env demo_world "plugins/none.lua" 0).1 2 rfl,
   (lua_load_script_runs_only_compiled demo_env demo_world "plugins/bad.lua" 0).2.1
     demo_state ⟨LUA_ERRSYNTAX, LuaValue.string "unexpected symbol"⟩ rfl rfl (by decide),
   (lua_load_script_runs_only_compiled demo_env demo_world "plugins/sub/c.lua" 0).2.2
     demo_state ⟨0, LuaValue.function 2⟩ 2 rfl rfl rfl rfl⟩


/-! ## The callback-table iterator -/

/-- C6 (failing input): the `init_routines` table of the concrete engine holds
two functions under the keys 1 and 2. `iter_table_and_call` invokes the first
one; `lua_tostring(L,-2)` has by then turned the key 1 on the stack into the
string "1", which is no key of the table, so the next `lua_next` raises
"invalid key to next" outside any protected call and the process aborts in
`wslua_panic`. The second function is never invoked. -/
theorem iter_table_and_call_numeric_keys_abort (fuel : Nat) :
    table_entries demo_state.tables 3
        = some [(LuaValue.number 1, LuaValue.function 5), (LuaValue.number 2, LuaValue.function 4)]
      ∧ iter_table_and_call demo_env (fuel + 2) demo_world demo_state "init_routines"
          CFunction.init_error_handler
        = Except.error (Fault.panic "invalid key to next" [Event.call 5 []])
      ∧ wslua_init_routine demo_env (fuel + 2) demo_world
        = Except.error
            (Fault.panic "invalid key to next" [Event.lua_prime_all_fields, Event.call 5 []]) := by
  refine ⟨rfl, ?_, ?_⟩ <;> rfl

theorem lua_tostring_keeps_top (env : Env) (LS : lua_State) :
    lua_isfunction (lua_tostring env LS (-2)).1 (-1) = lua_isfunction LS (-1) := by
  rcases hs : LS.stack with _ | ⟨a, _ | ⟨b, rest⟩⟩
  · simp [lua_tostring, stackpos, hs]
  · simp [lua_tostring, stackpos, hs]
  · cases b <;> simp [lua_tostring, stackpos, hs, lua_isfunction, lua_index]

/-- The iterator when the named global is not a table (lines 234-239). -/
theorem iter_table_and_call_not_table (env : Env) (fuel : Nat) (W : World) (LS : lua_State)
    (table_name : String) (error_handler : CFunction)
    (hnt : ∀ id, rawget LS.globals table_name ≠ LuaValue.table id) :
    iter_table_and_call env fuel W LS table_name error_handler
      = Except.ok { W with
          L := none
          trace := W.trace ++ [Event.report_failure
            ("Lua: either `" ++ table_name ++ "' does not exist or it is not a table!\n"),
            Event.lua_close] } := by
  cases hg : rawget LS.globals table_name <;>
    simp_all [iter_table_and_call, lua_settop, lua_push, lua_getglobal, lua_istable, lua_index,
      stackpos, lua_close, report_failure]

/-- The loop of the iterator when `lua_next` yields an entry whose value is not
a function (lines 252-257). -/
theorem iter_loop_not_function (env : Env) (fuel : Nat) (W : World) (LS LS1 : lua_State)
    (table_name : String) (hn : lua_next LS 2 = Except.ok (LS1, true))
    (hv : lua_isfunction LS1 (-1) = false) :
    iter_loop env table_name (fuel + 1) W LS
      = Except.ok { W with
          L := none
          trace := W.trace ++ [Event.report_failure
            ("Lua: Something not a function got its way into the " ++ table_name ++ "."
              ++ fmt_s (lua_tostring env LS1 (-2)).2),
            Event.lua_close] } := by
  simp [iter_loop, hn, lua_tostring_keeps_top, hv, lua_close, report_failure]

/-- C7 (as stated, refuted): on the concrete engine `wslua_prefs_changed` finds
no `prefs_changed` table and shuts the engine down (`L = NULL`); the call of
`wslua_init_routine` that follows is not a no-op: `initialized` is still false,
so it runs `lua_prime_all_fields` and sets the flag. -/
theorem init_routine_after_shutdown_primes :
    wslua_prefs_changed demo_env 1 demo_world = Except.ok demo_world_closed
      ∧ demo_world_closed.L = none
      ∧ wslua_init_routine demo_env 1 demo_world_closed
        = Except.ok { demo_world_closed with
            initialized := true
            trace := demo_world_closed.trace ++ [Event.lua_prime_all_fields] }
      ∧ wslua_init_routine demo_env 1 demo_world_closed ≠ Except.ok demo_world_closed := by
  refine ⟨rfl, rfl, rfl, ?_⟩
  intro h
  have ht := congrArg (fun r => match r with
    | Except.ok w => w.trace.length
    | Except.error _ => 0) h
  revert ht
  decide

theorem run_cfunction_eq (env : Env) (W : World) (c : CFunction) (msg : LuaValue) :
    run_cfunction env W c [msg] = { W with trace := W.trace ++ [handler_report env c msg] } := by
  cases c <;> rfl

theorem table_after_of_not_mem (pre post : LuaTable) (k v : LuaValue)
    (hk : ∀ e ∈ pre, e.1 ≠ k) :
    table_after (pre ++ (k, v) :: post) k = some post.head? := by
  induction pre with
  | nil => simp [table_after]
  | cons e pre ih =>
    obtain ⟨k0, v0⟩ := e
    have h0 : k0 ≠ k := hk (k0, v0) (by simp)
    simp only [List.cons_append, table_after, h0, if_false]
    exact ih (fun e he => hk e (List.mem_cons_of_mem _ he))

/-- One pass of the loop over the entries that remain, when every remaining
entry has a string key and a guest function as value. -/
theorem iter_loop_string_keys (env : Env) (table_name : String) (h : CFunction) (id : Nat)
    (R : List (Int × LuaValue)) (G : List (String × LuaValue)) (T : List (Nat × LuaTable))
    (t : LuaTable) (ht : table_entries T id = some t) (hnd : (t.map Prod.fst).Nodup) :
    ∀ (post pre : LuaTable) (key : LuaValue) (W : World) (fuel : Nat),
      t = pre ++ post →
      luaH_next t key = some post.head? →
      (∀ e ∈ post, (∃ s, e.1 = LuaValue.string s) ∧ ∃ f, e.2 = LuaValue.function f) →
      post.length < fuel →
      ∃ W1, iter_loop env table_name fuel W
          { stack := [key, LuaValue.table id, LuaValue.cfunction h],
            registry := R, globals := G, tables := T } = Except.ok W1
        ∧ W1.L = some { stack := [], registry := R, globals := G, tables := T }
        ∧ W1.trace = W.trace ++ table_events env h post := by
  intro post
  induction post with
  | nil =>
    intro pre key W fuel _ hnext _ hfuel
    obtain ⟨fuel, rfl⟩ : ∃ n, fuel = n + 1 := ⟨fuel - 1, by simp at hfuel; omega⟩
    refine ⟨{ W with L := some { stack := [], registry := R, globals := G, tables := T } },
      ?_, rfl, ?_⟩
    · simp [iter_loop, lua_next, lua_index, stackpos, ht, hnext, lua_settop]
    · simp [table_events]
  | cons e post ih =>
    intro pre key W fuel hsplit hnext hall hfuel
    obtain ⟨fuel, rfl⟩ : ∃ n, fuel = n + 1 := ⟨fuel - 1, by simp at hfuel; omega⟩
    obtain ⟨k, v⟩ := e
    obtain ⟨⟨s, hs⟩, ⟨f, hf⟩⟩ := hall (k, v) (by simp)
    simp only at hs hf
    subst hs hf
    have hnext2 : luaH_next t (LuaValue.string s) = some post.head? := by
      have hk : ∀ e ∈ pre, e.1 ≠ LuaValue.string s := by
        intro e he heq
        rw [hsplit, List.map_append, List.nodup_append] at hnd
        exact hnd.2.2 (List.mem_map_of_mem Prod.fst he)
          (by simp [← heq])
      simp only [luaH_next, hsplit, if_false, reduceCtorEq]
      exact table_after_of_not_mem pre post _ _ hk
    have hsplit2 : t = (pre ++ [(LuaValue.string s, LuaValue.function f)]) ++ post := by
      simp [hsplit]
    have hall2 : ∀ e ∈ post, (∃ s, e.1 = LuaValue.string s) ∧ ∃ f, e.2 = LuaValue.function f :=
      fun e he => hall e (List.mem_cons_of_mem _ he)
    have hfuel2 : post.length < fuel := by simp at hfuel; omega
    cases hr : (env.call f []).outcome with
    | returns vals =>
      obtain ⟨W1, h1, h2, h3⟩ := ih (pre ++ [(LuaValue.string s, LuaValue.function f)])
        (LuaValue.string s) (guest_effects W f [] (env.call f [])) fuel hsplit2 hnext2 hall2 hfuel2
      refine ⟨W1, ?_, h2, ?_⟩
      · rw [← h1]
        simp [iter_loop, lua_next, lua_index, stackpos, ht, hnext, lua_tostring, lua_isfunction,
          LuaValue.isfunction, lua_pcall, hr, adjust, LuaValue.tostring]
      · rw [h3]
        simp [table_events, entry_events, hr, guest_effects_eq]
    | error msg =>
      obtain ⟨W1, h1, h2, h3⟩ := ih (pre ++ [(LuaValue.string s, LuaValue.function f)])
        (LuaValue.string s) (run_cfunction env (guest_effects W f [] (env.call f [])) h [msg])
        fuel hsplit2 hnext2 hall2 hfuel2
      refine ⟨W1, ?_, h2, ?_⟩
      · rw [← h1]
        simp [iter_loop, lua_next, lua_index, stackpos, ht, hnext, lua_tostring, lua_isfunction,
          LuaValue.isfunction, lua_pcall, hr, pcall_error, LUA_ERRRUN, lua_pop, lua_push,
          LuaValue.tostring]
      · rw [h3]
        simp [table_events, entry_events, hr, guest_effects_eq, run_cfunction_eq]

theorem guest_calls_table_events (env : Env) (error_handler : CFunction)
    (entries : List (String × Nat)) :
    guest_calls (table_events env error_handler
        (entries.map fun e => (LuaValue.string e.1, LuaValue.function e.2)))
      = entries.map fun e => Event.call e.2 [] := by
  induction entries with
  | nil => rfl
  | cons e entries ih =>
    simp only [List.map_cons, table_events, guest_calls, List.filter_append] at ih ⊢
    rw [ih]
    cases hr : (env.call e.2 []).outcome <;>
      simp [entry_events, hr, handler_report, Event.is_call]

/-- On a callback table whose keys are distinct strings and whose values are
guest functions, enough fuel (more than the number of entries) lets
`iter_table_and_call` return: every entry has been invoked exactly once, in
iteration order and without arguments, an entry that raised an error has been
reported through the supplied error handler without stopping the iteration,
and the engine instance is still present. -/
theorem iter_table_and_call_string_keys (env : Env) (fuel : Nat) (W : World) (LS : lua_State)
    (table_name : String) (error_handler : CFunction) (id : Nat)
    (entries : List (String × Nat))
    (hg : rawget LS.globals table_name = LuaValue.table id)
    (ht : table_entries LS.tables id
      = some (entries.map fun e => (LuaValue.string e.1, LuaValue.function e.2)))
    (hnd : (entries.map Prod.fst).Nodup) (hfuel : entries.length < fuel) :
    ∃ W1, iter_table_and_call env fuel W LS table_name error_handler = Except.ok W1
      ∧ W1.L = some { LS with stack := [] }
      ∧ emitted W W1 = table_events env error_handler
          (entries.map fun e => (LuaValue.string e.1, LuaValue.function e.2))
      ∧ guest_calls (emitted W W1) = entries.map fun e => Event.call e.2 [] := by
  have hnd2 : ((entries.map fun e : String × Nat =>
      (LuaValue.string e.1, LuaValue.function e.2)).map Prod.fst).Nodup := by
    rw [List.map_map]
    have : (Prod.fst ∘ fun e : String × Nat => (LuaValue.string e.1, LuaValue.function e.2))
        = LuaValue.string ∘ Prod.fst := rfl
    rw [this, ← List.map_map]
    exact hnd.map (fun a b hab => by injection hab)
  obtain ⟨W1, h1, h2, h3⟩ := iter_loop_string_keys env table_name error_handler id LS.registry
    LS.globals LS.tables _ ht hnd2
    (entries.map fun e => (LuaValue.string e.1, LuaValue.function e.2)) [] LuaValue.nil W fuel
    (by simp) (by simp [luaH_next])
    (by
      intro e he
      simp only [List.mem_map] at he
      obtain ⟨a, -, rfl⟩ := he
      exact ⟨⟨a.1, rfl⟩, ⟨a.2, rfl⟩⟩)
    (by simpa using hfuel)
  refine ⟨W1, ?_, h2, emitted_append W W1 _ h3, ?_⟩
  · rw [← h1]
    simp [iter_table_and_call, lua_settop, lua_push, lua_getglobal, hg, lua_istable, lua_index,
      stackpos]
  · rw [emitted_append W W1 _ h3]
    exact guest_calls_table_events env error_handler entries


theorem lua_tostring_not_number (env : Env) (R : List (Int × LuaValue))
    (G : List (String × LuaValue)) (T : List (Nat × LuaTable)) (a k : LuaValue)
    (rest : List LuaValue) (hk : ∀ n, k ≠ LuaValue.number n) :
    lua_tostring env { stack := a :: k :: rest, registry := R, globals := G, tables := T } (-2)
      = ({ stack := a :: k :: rest, registry := R, globals := G, tables := T },
          k.tostring env) := by
  cases k with
  | number n => exact absurd rfl (hk n)
  | _ => simp [lua_tostring, stackpos]

/-- The loop over entries that are invoked (keys that are neither nil nor
numbers, guest functions as values) up to an entry whose value is not a
function: that entry is reported, the engine is closed and `L` is `NULL`. -/
theorem iter_loop_until_non_function (env : Env) (table_name : String) (h : CFunction)
    (id : Nat) (R : List (Int × LuaValue)) (G : List (String × LuaValue))
    (T : List (Nat × LuaTable)) (t : LuaTable) (ht : table_entries T id = some t)
    (k v : LuaValue) (post : LuaTable) (hv : v.isfunction = false) :
    ∀ (mid done : LuaTable) (key : LuaValue) (W : World) (fuel : Nat),
      t = done ++ (mid ++ (k, v) :: post) →
      ((done ++ mid).map Prod.fst).Nodup →
      luaH_next t key = some (mid ++ (k, v) :: post).head? →
      (∀ e ∈ mid, (e.1 ≠ LuaValue.nil ∧ ∀ n, e.1 ≠ LuaValue.number n)
        ∧ ∃ f, e.2 = LuaValue.function f) →
      mid.length < fuel →
      ∃ W1, iter_loop env table_name fuel W
          { stack := [key, LuaValue.table id, LuaValue.cfunction h],
            registry := R, globals := G, tables := T } = Except.ok W1
        ∧ W1.L = none
        ∧ W1.trace = W.trace ++ (table_events env h mid
            ++ [Event.report_failure
                  ("Lua: Something not a function got its way into the " ++ table_name ++ "."
                    ++ fmt_s (k.tostring env)),
                Event.lua_close]) := by
  intro mid
  induction mid with
  | nil =>
    intro done key W fuel _ _ hnext _ hfuel
    obtain ⟨fuel, rfl⟩ : ∃ n, fuel = n + 1 := ⟨fuel - 1, by simp at hfuel; omega⟩
    simp only [List.nil_append, List.head?_cons] at hnext
    have hn : lua_next (lua_State.mk [key, LuaValue.table id, LuaValue.cfunction h] R G T) 2
        = Except.ok
            (lua_State.mk [v, k, LuaValue.table id, LuaValue.cfunction h] R G T, true) := by
      simp [lua_next, lua_index, stackpos, ht, hnext]
    have hf : lua_isfunction
        (lua_State.mk [v, k, LuaValue.table id, LuaValue.cfunction h] R G T) (-1) = false := by
      simp [lua_isfunction, lua_index, stackpos, hv]
    have hname : (lua_tostring env
        (lua_State.mk [v, k, LuaValue.table id, LuaValue.cfunction h] R G T) (-2)).2
          = k.tostring env := by
      cases k <;> simp [lua_tostring, stackpos, LuaValue.tostring]
    refine ⟨_, iter_loop_not_function env fuel W _ _ table_name hn hf, rfl, ?_⟩
    simp [hname, table_events]
  | cons e mid ih =>
    intro done key W fuel hsplit hnd hnext hall hfuel
    obtain ⟨fuel, rfl⟩ : ∃ n, fuel = n + 1 := ⟨fuel - 1, by simp at hfuel; omega⟩
    obtain ⟨k0, v0⟩ := e
    obtain ⟨⟨hnil, hnum⟩, ⟨f, hf⟩⟩ := hall (k0, v0) (by simp)
    simp only at hnil hnum hf
    subst hf
    simp only [List.cons_append, List.head?_cons] at hnext
    have hnext2 : luaH_next t k0 = some (mid ++ (k, v) :: post).head? := by
      have hk : ∀ e ∈ done, e.1 ≠ k0 := by
        intro e he heq
        rw [List.map_append, List.nodup_append] at hnd
        exact hnd.2.2 (List.mem_map_of_mem Prod.fst he) (by simp [← heq])
      simp only [luaH_next, hnil, if_false]
      rw [hsplit]
      exact table_after_of_not_mem done (mid ++ (k, v) :: post) _ _ hk
    have hsplit2 : t = (done ++ [(k0, LuaValue.function f)]) ++ (mid ++ (k, v) :: post) := by
      simp [hsplit]
    have hnd2 : (((done ++ [(k0, LuaValue.function f)]) ++ mid).map Prod.fst).Nodup := by
      simpa using hnd
    have hall2 : ∀ e ∈ mid, (e.1 ≠ LuaValue.nil ∧ ∀ n, e.1 ≠ LuaValue.number n)
        ∧ ∃ f, e.2 = LuaValue.function f :=
      fun e he => hall e (List.mem_cons_of_mem _ he)
    have hfuel2 : mid.length < fuel := by simp at hfuel; omega
    cases hr : (env.call f []).outcome with
    | returns vals =>
      obtain ⟨W1, h1, h2, h3⟩ := ih (done ++ [(k0, LuaValue.function f)]) k0
        (guest_effects W f [] (env.call f [])) fuel hsplit2 hnd2 hnext2 hall2 hfuel2
      refine ⟨W1, ?_, h2, ?_⟩
      · rw [← h1]
        simp [iter_loop, lua_next, lua_index, stackpos, ht, hnext,
          lua_tostring_not_number env R G T _ k0 _ hnum, lua_isfunction,
          LuaValue.isfunction, lua_pcall, hr, adjust]
      · rw [h3]
        simp [table_events, entry_events, hr, guest_effects_eq]
    | error msg =>
      obtain ⟨W1, h1, h2, h3⟩ := ih (done ++ [(k0, LuaValue.function f)]) k0
        (run_cfunction env (guest_effects W f [] (env.call f [])) h [msg])
        fuel hsplit2 hnd2 hnext2 hall2 hfuel2
      refine ⟨W1, ?_, h2, ?_⟩
      · rw [← h1]
        simp [iter_loop, lua_next, lua_index, stackpos, ht, hnext,
          lua_tostring_not_number env R G T _ k0 _ hnum, lua_isfunction,
          LuaValue.isfunction, lua_pcall, hr, pcall_error, LUA_ERRRUN, lua_pop, lua_push]
      · rw [h3]
        simp [table_events, entry_events, hr, guest_effects_eq, run_cfunction_eq]

theorem guest_calls_table_events_keys (env : Env) (error_handler : CFunction)
    (entries : List (LuaValue × Nat)) :
    guest_calls (table_events env error_handler
        (entries.map fun e => (e.1, LuaValue.function e.2)))
      = entries.map fun e => Event.call e.2 [] := by
  induction entries with
  | nil => rfl
  | cons e entries ih =>
    simp only [List.map_cons, table_events, guest_calls, List.filter_append] at ih ⊢
    rw [ih]
    cases hr : (env.call e.2 []).outcome <;>
      simp [entry_events, hr, handler_report, Event.is_call]

/-- The iterator on a table whose first entries are invoked and are followed
by an entry whose value is not a function (lines 252-257 reached from the
entry point). -/
theorem iter_table_and_call_non_function (env : Env) (fuel : Nat) (W : World) (LS : lua_State)
    (table_name : String) (error_handler : CFunction) (id : Nat)
    (pre : List (LuaValue × Nat)) (k v : LuaValue) (post : LuaTable)
    (hg : rawget LS.globals table_name = LuaValue.table id)
    (ht : table_entries LS.tables id
      = some (pre.map (fun e => (e.1, LuaValue.function e.2)) ++ (k, v) :: post))
    (hkeys : ∀ e ∈ pre, e.1 ≠ LuaValue.nil ∧ ∀ n, e.1 ≠ LuaValue.number n)
    (hnd : (pre.map Prod.fst).Nodup) (hv : v.isfunction = false) (hfuel : pre.length < fuel) :
    ∃ W1, iter_table_and_call env fuel W LS table_name error_handler = Except.ok W1
      ∧ W1.L = none
      ∧ emitted W W1 = table_events env error_handler
            (pre.map fun e => (e.1, LuaValue.function e.2))
          ++ [Event.report_failure
                ("Lua: Something not a function got its way into the " ++ table_name ++ "."
                  ++ fmt_s (k.tostring env)),
              Event.lua_close]
      ∧ guest_calls (emitted W W1) = pre.map fun e => Event.call e.2 [] := by
  have hnd2 : (([] ++ pre.map fun e : LuaValue × Nat =>
      (e.1, LuaValue.function e.2)).map Prod.fst).Nodup := by
    simpa [List.map_map, Function.comp_def] using hnd
  obtain ⟨W1, h1, h2, h3⟩ := iter_loop_until_non_function env table_name error_handler id
    LS.registry LS.globals LS.tables _ ht k v post hv
    (pre.map fun e => (e.1, LuaValue.function e.2)) [] LuaValue.nil W fuel
    (by simp) hnd2 (by simp [luaH_next])
    (by
      intro e he
      simp only [List.mem_map] at he
      obtain ⟨a, ha, rfl⟩ := he
      exact ⟨hkeys a ha, ⟨a.2, rfl⟩⟩)
    (by simpa using hfuel)
  refine ⟨W1, ?_, h2, emitted_append W W1 _ h3, ?_⟩
  · rw [← h1]
    simp [iter_table_and_call, lua_settop, lua_push, lua_getglobal, hg, lua_istable, lua_index,
      stackpos]
  · rw [emitted_append W W1 _ h3]
    simp only [guest_calls, List.filter_append]
    have := guest_calls_table_events_keys env error_handler pre
    simp only [guest_calls] at this
    rw [this]
    simp [Event.is_call]

/-- C7 (amended): when `iter_table_and_call` finds that the named global is not
a table, it emits one diagnostic, closes the engine and leaves `L = NULL`
without invoking anything. When the named global is a table whose first
entries are functions under keys that are neither nil nor numbers, followed by
an entry whose value is not a function, `iter_table_and_call` invokes exactly
the entries before it (reporting those that raise an error through the error
handler), then emits one diagnostic naming the table and the entry, closes the
engine and leaves `L = NULL`; no later entry is invoked, and a following
`wslua_prefs_changed` changes nothing. With the engine absent, every call of
`wslua_prefs_changed` is a no-op, and every call of `wslua_init_routine`
invokes no guest code and reports nothing of its own: it is a no-op once
`initialized` is set, and otherwise (its first call ever) it only runs
`lua_prime_all_fields` and sets `initialized`. -/
theorem iter_table_and_call_shutdown (env : Env) (fuel : Nat) (W : World) :
    (∀ LS table_name error_handler, (∀ id, rawget LS.globals table_name ≠ LuaValue.table id) →
      ∃ text, iter_table_and_call env fuel W LS table_name error_handler
        = Except.ok { W with
            L := none, trace := W.trace ++ [Event.report_failure text, Event.lua_close] })
    ∧ (∀ LS table_name error_handler id (pre : List (LuaValue × Nat)) k v post,
        rawget LS.globals table_name = LuaValue.table id →
        table_entries LS.tables id
          = some (pre.map (fun e => (e.1, LuaValue.function e.2)) ++ (k, v) :: post) →
        (∀ e ∈ pre, e.1 ≠ LuaValue.nil ∧ ∀ n, e.1 ≠ LuaValue.number n) →
        (pre.map Prod.fst).Nodup →
        v.isfunction = false →
        pre.length < fuel →
        ∃ W1 text, iter_table_and_call env fuel W LS table_name error_handler = Except.ok W1
          ∧ W1.L = none
          ∧ emitted W W1
              = table_events env error_handler (pre.map fun e => (e.1, LuaValue.function e.2))
                ++ [Event.report_failure text, Event.lua_close]
          ∧ guest_calls (emitted W W1) = pre.map (fun e => Event.call e.2 [])
          ∧ wslua_prefs_changed env fuel W1 = Except.ok W1)
    ∧ (W.L = none →
        wslua_prefs_changed env fuel W = Except.ok W
          ∧ wslua_init_routine env fuel W
            = Except.ok (if W.initialized = true then W
                else { W with
                  initialized := true, trace := W.trace ++ [Event.lua_prime_all_fields] })) := by
  refine ⟨fun LS table_name error_handler hnt => ⟨_,
      iter_table_and_call_not_table env fuel W LS table_name error_handler hnt⟩,
    fun LS table_name error_handler id pre k v post hg ht hkeys hnd hv hfuel => ?_,
    fun hL => ⟨?_, ?_⟩⟩
  · obtain ⟨W1, h1, h2, h3, h4⟩ := iter_table_and_call_non_function env fuel W LS table_name
      error_handler id pre k v post hg ht hkeys hnd hv hfuel
    exact ⟨W1, _, h1, h2, h3, h4, by simp [wslua_prefs_changed, h2]⟩
  · simp [wslua_prefs_changed, hL]
  · cases hi : W.initialized <;>
      simp [wslua_init_routine, hL, hi, lua_prime_all_fields]

/-- C7 witness: the concrete engine has no `prefs_changed` table, so the
iterator shuts it down at once. With table 2 as `init_routines`, the iterator
invokes the functions under `foo`, `bar` and `str`, then meets the number under
`num`, reports it, closes the engine and leaves `L = NULL`. Once the engine is
gone `wslua_prefs_changed` changes nothing. -/
theorem iter_table_and_call_shutdown_witness :
    (∃ text, iter_table_and_call demo_env 5 demo_world demo_state "prefs_changed"
        CFunction.prefs_changed_error_handler
      = Except.ok { demo_world with
          L := none
          trace := demo_world.trace ++ [Event.report_failure text, Event.lua_close] })
    ∧ (∃ W1 text, iter_table_and_call demo_env 5 demo_world demo_state_hooks "init_routines"
          CFunction.init_error_handler = Except.ok W1
        ∧ W1.L = none
        ∧ emitted demo_world W1
            = table_events demo_env CFunction.init_error_handler
                [(LuaValue.string "foo", LuaValue.function 4),
                 (LuaValue.string "bar", LuaValue.function 2),
                 (LuaValue.string "str", LuaValue.function 6)]
              ++ [Event.report_failure text, Event.lua_close]
        ∧ guest_calls (emitted demo_world W1)
            = [Event.call 4 [], Event.call 2 [], Event.call 6 []]
        ∧ wslua_prefs_changed demo_env 5 W1 = Except.ok W1)
    ∧ (wslua_prefs_changed demo_env 5 demo_world_closed = Except.ok demo_world_closed
      ∧ wslua_init_routine demo_env 5 demo_world_closed
        = Except.ok (if demo_world_closed.initialized = true then demo_world_closed
            else { demo_world_closed with
              initialized := true
              trace := demo_world_closed.trace ++ [Event.lua_prime_all_fields] })) :=
  ⟨(iter_table_and_call_shutdown demo_env 5 demo_world).1 demo_state "prefs_changed"
      CFunction.prefs_changed_error_handler (fun id h => by cases h),
   (iter_table_and_call_shutdown demo_env 5 demo_world).2.1 demo_state_hooks "init_routines"
      CFunction.init_error_handler 2
      [(LuaValue.string "foo", 4), (LuaValue.string "bar", 2), (LuaValue.string "str", 6)]
      (LuaValue.string "num") (LuaValue.number 3) [] rfl rfl
      (fun e he => by
        simp only [List.mem_cons, List.mem_singleton, List.not_mem_nil, or_false] at he
        rcases he with rfl | rfl | rfl <;>
          exact ⟨(fun h => by cases h), (fun n h => by cases h)⟩)
      (by decide) rfl (by decide),
   (iter_table_and_call_shutdown demo_env 5 demo_world_closed).2.2 rfl⟩

/-! ## Loading a directory -/

theorem strrchr_none (c : Char) (l : List Char) (h : c ∉ l) : strrchr l c = none := by
  induction l with
  | nil => rfl
  | cons x xs ih =>
    have hx : x ≠ c := fun e => h (by simp [e])
    have hxs : c ∉ xs := fun e => h (by simp [e])
    simp [strrchr, ih hxs, hx]

theorem strrchr_append (c : Char) (pre ext : List Char) (h : c ∉ ext) :
    strrchr (pre ++ c :: ext) c = some ext := by
  induction pre with
  | nil => simp [strrchr, strrchr_none c ext h]
  | cons x pre ih => simp [strrchr, ih]

theorem strrchr_some (c : Char) (l ext : List Char) (h : strrchr l c = some ext) :
    ∃ pre, l = pre ++ c :: ext ∧ c ∉ ext := by
  induction l with
  | nil => simp [strrchr] at h
  | cons x xs ih =>
    simp only [strrchr] at h
    cases hxs : strrchr xs c with
    | some r =>
      rw [hxs] at h
      simp only [Option.some.injEq] at h
      subst h
      obtain ⟨pre, hpre, hno⟩ := ih hxs
      exact ⟨x :: pre, by simp [hpre], hno⟩
    | none =>
      rw [hxs] at h
      simp only at h
      split at h
      · rename_i hx
        simp only [Option.some.injEq] at h
        subst h hx
        refine ⟨[], rfl, ?_⟩
        intro hmem
        have : ∃ r, strrchr xs x = some r := by
          clear ih hxs
          induction xs with
          | nil => simp at hmem
          | cons y ys ih2 =>
            simp only [strrchr]
            cases hys : strrchr ys x with
            | some r => exact ⟨r, rfl⟩
            | none =>
              simp only [List.mem_cons] at hmem
              rcases hmem with rfl | hm
              · exact ⟨ys, by simp⟩
              · obtain ⟨r, hr⟩ := ih2 hm
                rw [hr] at hys
                cases hys
        obtain ⟨r, hr⟩ := this
        rw [hr] at hxs
        cases hxs
      · cases h

theorem toLower_eq_dot (c : Char) (h : c.toLower = '.') : c = '.' := by
  unfold Char.toLower at h
  dsimp only at h
  split at h
  · rename_i hr
    obtain ⟨h1, h2⟩ := hr
    generalize c.toNat = n at h h1 h2
    interval_cases n <;> exact absurd h (by decide)
  · exact h

theorem strrchr_mem (c : Char) (l : List Char) (h : c ∈ l) : strrchr l c ≠ none := by
  induction l with
  | nil => simp at h
  | cons y ys ih =>
    simp only [strrchr]
    cases hys : strrchr ys c with
    | some r => simp
    | none =>
      simp only [List.mem_cons] at h
      rcases h with rfl | hm
      · simp
      · exact absurd hys (ih hm)

/-- The two name tests of the source skip exactly the names that are not
eligible in the sense of the spec. -/
theorem skip_name_eq (name : String) : skip_name name = !eligible name := by
  unfold skip_name eligible
  by_cases hd : name.data.head? = some '.'
  · simp [hd]
  · simp only [hd, if_false, decide_False, Bool.not_false, Bool.true_and]
    cases hs : strrchr name.data '.' with
    | none =>
      simp only [Bool.true_eq, Bool.not_eq_true']
      rw [Bool.eq_false_iff]
      intro hsuf
      rw [List.isSuffixOf_iff_suffix] at hsuf
      obtain ⟨s, hs2⟩ := hsuf
      have hmem : '.' ∈ name.data.map Char.toLower := by rw [← hs2]; simp
      rw [List.mem_map] at hmem
      obtain ⟨c, hc, hcl⟩ := hmem
      have := toLower_eq_dot c hcl
      subst this
      exact strrchr_mem '.' name.data hc hs
    | some ext =>
      obtain ⟨pre, hsplit, hno⟩ := strrchr_some '.' name.data ext hs
      have hno2 : '.' ∉ ext.map Char.toLower := by
        intro hmem
        rw [List.mem_map] at hmem
        obtain ⟨c, hc, hcl⟩ := hmem
        exact hno (toLower_eq_dot c hcl ▸ hc)
      simp only [g_ascii_strcasecmp_eq]
      congr 1
      rw [Bool.eq_iff_iff, decide_eq_true_iff, List.isSuffixOf_iff_suffix]
      constructor
      · intro hext
        refine ⟨pre.map Char.toLower, ?_⟩
        rw [hsplit, List.map_append, List.map_cons, hext]
        rfl
      · rintro ⟨s, hs2⟩
        rw [hsplit, List.map_append, List.map_cons] at hs2
        have h1 := strrchr_append '.' (pre.map Char.toLower) (ext.map Char.toLower) hno2
        have h2 := strrchr_append '.' s ['l', 'u', 'a'] (by decide)
        have h3 : ('.' : Char).toLower = '.' := by decide
        rw [h3] at hs2
        rw [← hs2, h2] at h1
        exact (Option.some.inj h1).symm

theorem lua_pcall_plugin_list (env : Env) (W : World) (Ls : lua_State) (nargs nresults : Nat)
    (errfunc : Int) :
    (lua_pcall env W Ls nargs nresults errfunc).1.wslua_plugin_list = W.wslua_plugin_list := by
  unfold lua_pcall
  dsimp only
  generalize (if errfunc = 0 then none else lua_index Ls errfunc) = handler
  have hcf : ∀ (W : World) c args, (run_cfunction env W c args).wslua_plugin_list
      = W.wslua_plugin_list := by
    intro W c args; cases c <;> rfl
  have herr : ∀ (W : World) Ls handler msg,
      (pcall_error env W Ls handler msg).1.wslua_plugin_list = W.wslua_plugin_list := by
    intro W Ls handler msg
    unfold pcall_error
    split
    · exact hcf _ _ _
    · rfl
  cases (Ls.stack.drop nargs).head? with
  | none => simp [herr]
  | some v =>
    cases v with
    | function f =>
      dsimp only
      split
      · simp [guest_effects_eq]
      · simp [herr, guest_effects_eq]
    | cfunction c => simp [hcf]
    | _ => simp [herr]

/-- The result of `lua_load_script` for a plugin file is `script_loads`; the
engine stays present and the plugin list is not touched. -/
theorem lua_load_script_result (env : Env) (W : World) (Ls : lua_State) (path : String)
    (hL : W.L = some Ls) :
    ∃ W1, lua_load_script env W path 0 = Except.ok (W1, script_loads env path)
      ∧ W1.L ≠ none ∧ W1.wslua_plugin_list = W.wslua_plugin_list := by
  cases hopen : env.ws_fopen path with
  | error errno =>
    have hs : script_loads env path = false := by simp [script_loads, hopen]
    rw [hs, lua_load_script_open_failure env W path 0 errno hopen]
    exact ⟨_, rfl, by simp [report_open_failure, hL], rfl⟩
  | ok file =>
    by_cases h0 : file.load_status = 0
    · have hs : script_loads env path = true := by simp [script_loads, hopen, h0]
      rw [hs]
      simp only [lua_load_script, hopen, hL, h0, if_true]
      exact ⟨_, rfl, by simp, by simp [fclose, lua_pcall_plugin_list]⟩
    · obtain ⟨Ls1, pre, post, h1⟩ :=
        lua_load_script_compile_failure env W Ls path 0 file hopen hL h0
      have hs : script_loads env path = false := by simp [script_loads, hopen, h0]
      rw [hs, h1]
      exact ⟨_, rfl, by simp, by simp [fclose, report_failure]⟩

theorem eligible_dot : eligible "." = false ∧ eligible ".." = false := by
  constructor <;> rfl

mutual
/-- Counting: the world is unchanged and the count is the number of eligible
files. -/
theorem lua_load_plugins_count_only (env : Env) (W : World) (cb : Bool) :
    ∀ (dir : Option (List DirEntry)) (dirname : String), well_formed dir = true →
      lua_load_plugins env W dirname dir cb true
        = Except.ok (W, ((eligible_files env.G_DIR_SEPARATOR_S dirname dir).length : Int))
  | none, dirname, _ => by simp [lua_load_plugins, eligible_files]
  | some entries, dirname, h => by
    rw [lua_load_plugins, eligible_files]
    have := lua_load_plugins_loop_count_only env W cb entries dirname 0
      (by simpa [well_formed] using h)
    simpa using this
/-- Counting, for the loop over the entries of one directory. -/
theorem lua_load_plugins_loop_count_only (env : Env) (W : World) (cb : Bool) :
    ∀ (entries : List DirEntry) (dirname : String) (c : Int), well_formed_list entries = true →
      lua_load_plugins_loop env W dirname entries cb true c
        = Except.ok (W,
            c + ((eligible_files_list env.G_DIR_SEPARATOR_S dirname entries).length : Int))
  | [], dirname, c, _ => by simp [lua_load_plugins_loop, eligible_files_list]
  | DirEntry.file name :: rest, dirname, c, h => by
    have ih := lua_load_plugins_loop_count_only env W cb rest dirname
    have hrest : well_formed_list rest = true := by simpa [well_formed_list] using h
    rw [lua_load_plugins_loop]
    simp only [DirEntry.name, DirEntry.file_exists, skip_name_eq, eligible_files_list]
    by_cases hdot : name = "." ∨ name = ".."
    · have he : eligible name = false := by
        rcases hdot with rfl | rfl
        · exact eligible_dot.1
        · exact eligible_dot.2
      simp [hdot, he, ih _ hrest]
    · cases he : eligible name <;> simp [hdot, he, ih _ hrest]
      omega
  | DirEntry.dangling name :: rest, dirname, c, h => by
    have ih := lua_load_plugins_loop_count_only env W cb rest dirname
    have hrest : well_formed_list rest = true := by simpa [well_formed_list] using h
    rw [lua_load_plugins_loop]
    simp only [DirEntry.name, DirEntry.file_exists, eligible_files_list]
    by_cases hdot : name = "." ∨ name = ".."
    · simp [hdot, ih _ hrest]
    · cases hs : skip_name name <;> simp [hdot, hs, ih _ hrest]
  | DirEntry.dir name content :: rest, dirname, c, h => by
    have ih := lua_load_plugins_loop_count_only env W cb rest dirname
    simp only [well_formed_list, Bool.and_eq_true, bne_iff_ne, ne_eq] at h
    obtain ⟨⟨⟨h1, h2⟩, h3⟩, h4⟩ := h
    have ih2 := lua_load_plugins_count_only env W cb content
      (dirname ++ env.G_DIR_SEPARATOR_S ++ name) h3
    rw [lua_load_plugins_loop]
    simp [DirEntry.name, h1, h2, ih2, ih _ h4, eligible_files_list]
    omega
end

theorem descriptions_congr (W W1 : World) (h : W1.wslua_plugin_list = W.wslua_plugin_list) :
    wslua_plugins_get_descriptions W1 = wslua_plugins_get_descriptions W := by
  unfold wslua_plugins_get_descriptions
  rw [h]

theorem wslua_add_plugin_L (W : World) (name version filename : String) :
    (wslua_add_plugin W name version filename).L = W.L := by
  unfold wslua_add_plugin
  cases W.wslua_plugin_list <;> rfl

mutual
/-- Loading: the count is the number of eligible files and the plugin list
grows by the records of those eligible files whose script loads. -/
theorem lua_load_plugins_load (env : Env) (cb : Bool) :
    ∀ (dir : Option (List DirEntry)) (W : World) (dirname : String),
      well_formed dir = true → W.L ≠ none →
      ∃ W1, lua_load_plugins env W dirname dir cb false
          = Except.ok (W1, ((eligible_files env.G_DIR_SEPARATOR_S dirname dir).length : Int))
        ∧ W1.L ≠ none
        ∧ wslua_plugins_get_descriptions W1 = wslua_plugins_get_descriptions W
            ++ ((eligible_files env.G_DIR_SEPARATOR_S dirname dir).filter
                  fun e => script_loads env e.2).map plugin_record
  | none, W, dirname, _, hL => ⟨W, by simp [lua_load_plugins, eligible_files], hL,
      by simp [eligible_files]⟩
  | some entries, W, dirname, h, hL => by
    obtain ⟨W1, h1, h2, h3⟩ := lua_load_plugins_loop_load env cb entries W dirname 0
      (by simpa [well_formed] using h) hL
    refine ⟨W1, ?_, h2, ?_⟩
    · rw [lua_load_plugins, eligible_files, h1]; simp
    · rw [eligible_files, h3]
/-- Loading, for the loop over the entries of one directory. -/
theorem lua_load_plugins_loop_load (env : Env) (cb : Bool) :
    ∀ (entries : List DirEntry) (W : World) (dirname : String) (c : Int),
      well_formed_list entries = true → W.L ≠ none →
      ∃ W1, lua_load_plugins_loop env W dirname entries cb false c
          = Except.ok (W1,
              c + ((eligible_files_list env.G_DIR_SEPARATOR_S dirname entries).length : Int))
        ∧ W1.L ≠ none
        ∧ wslua_plugins_get_descriptions W1 = wslua_plugins_get_descriptions W
            ++ ((eligible_files_list env.G_DIR_SEPARATOR_S dirname entries).filter
                  fun e => script_loads env e.2).map plugin_record
  | [], W, dirname, c, _, hL => ⟨W, by simp [lua_load_plugins_loop, eligible_files_list], hL,
      by simp [eligible_files_list]⟩
  | DirEntry.file name :: rest, W, dirname, c, h, hL => by
    have hrest : well_formed_list rest = true := by simpa [well_formed_list] using h
    rw [lua_load_plugins_loop]
    simp only [DirEntry.name, DirEntry.file_exists, skip_name_eq, eligible_files_list]
    by_cases hdot : name = "." ∨ name = ".."
    · have he : eligible name = false := by
        rcases hdot with rfl | rfl
        · exact eligible_dot.1
        · exact eligible_dot.2
      obtain ⟨W1, h1, h2, h3⟩ := lua_load_plugins_loop_load env cb rest W dirname c hrest hL
      exact ⟨W1, by simp [hdot, he, h1], h2, by simp [he, h3]⟩
    · cases he : eligible name with
      | false =>
        obtain ⟨W1, h1, h2, h3⟩ := lua_load_plugins_loop_load env cb rest W dirname c hrest hL
        exact ⟨W1, by simp [hdot, he, h1], h2, by simp [he, h3]⟩
      | true =>
        have hL0 : (if cb = true then { W with trace := W.trace ++ [Event.register_cb name] }
            else W).L ≠ none := by
          cases cb <;> simpa using hL
        obtain ⟨Ls, hLs⟩ := Option.ne_none_iff_exists'.mp hL0
        obtain ⟨W2, hload, hL2, hpl⟩ := lua_load_script_result env _ Ls
          (dirname ++ env.G_DIR_SEPARATOR_S ++ name) hLs
        have hpl2 : W2.wslua_plugin_list = W.wslua_plugin_list := by
          rw [hpl]; cases cb <;> rfl
        cases hs : script_loads env (dirname ++ env.G_DIR_SEPARATOR_S ++ name) with
        | true =>
          rw [hs] at hload
          obtain ⟨W1, h1, h2, h3⟩ := lua_load_plugins_loop_load env cb rest
            (wslua_add_plugin W2 name "" (dirname ++ env.G_DIR_SEPARATOR_S ++ name)) dirname
            (c + 1) hrest (by rw [wslua_add_plugin_L]; exact hL2)
          refine ⟨W1, ?_, h2, ?_⟩
          · simp only [hdot, if_false, he, Bool.not_true, Bool.false_eq_true, if_true, hload, h1]
            simp
            omega
          · rw [h3, wslua_add_plugin_descriptions, descriptions_congr W W2 hpl2]
            simp [he, hs, plugin_record]
        | false =>
          rw [hs] at hload
          obtain ⟨W1, h1, h2, h3⟩ := lua_load_plugins_loop_load env cb rest W2 dirname
            (c + 1) hrest hL2
          refine ⟨W1, ?_, h2, ?_⟩
          · simp only [hdot, if_false, he, Bool.not_true, Bool.false_eq_true, if_true, hload, h1]
            simp
            omega
          · rw [h3, descriptions_congr W W2 hpl2]
            simp [he, hs]
  | DirEntry.dangling name :: rest, W, dirname, c, h, hL => by
    have hrest : well_formed_list rest = true := by simpa [well_formed_list] using h
    obtain ⟨W1, h1, h2, h3⟩ := lua_load_plugins_loop_load env cb rest W dirname c hrest hL
    rw [lua_load_plugins_loop]
    simp only [DirEntry.name, DirEntry.file_exists, eligible_files_list]
    refine ⟨W1, ?_, h2, h3⟩
    by_cases hdot : name = "." ∨ name = ".."
    · simp [hdot, h1]
    · cases hs : skip_name name <;> simp [hdot, hs, h1]
  | DirEntry.dir name content :: rest, W, dirname, c, h, hL => by
    simp only [well_formed_list, Bool.and_eq_true, bne_iff_ne, ne_eq] at h
    obtain ⟨⟨⟨hn1, hn2⟩, hw3⟩, hw4⟩ := h
    obtain ⟨W2, g1, g2, g3⟩ := lua_load_plugins_load env cb content W
      (dirname ++ env.G_DIR_SEPARATOR_S ++ name) hw3 hL
    obtain ⟨W1, h1, h2, h3⟩ := lua_load_plugins_loop_load env cb rest W2 dirname
      (c + ((eligible_files env.G_DIR_SEPARATOR_S
        (dirname ++ env.G_DIR_SEPARATOR_S ++ name) content).length : Int)) hw4 g2
    rw [lua_load_plugins_loop]
    refine ⟨W1, ?_, h2, ?_⟩
    · simp [DirEntry.name, hn1, hn2, g1, h1, eligible_files_list]
      omega
    · rw [h3, g3]
      simp [eligible_files_list]
end

/-- C8: for every directory tree, `lua_load_plugins` treats a file as eligible
exactly when its name does not start with a dot and its extension is the Lua
suffix (`.lua`, compared as `g_ascii_strcasecmp` does, without regard to ASCII
case), descending into every subdirectory; it returns the number of eligible
files in the whole tree. In `count_only` mode it executes no script and
appends no plugin record: the whole state is unchanged. In load mode it
appends, for each eligible file whose `lua_load_script` succeeds and for no
other file, one record with name = file name, version = empty string and
filename = full path, in the order the files are read. -/
theorem lua_load_plugins_eligible_files (env : Env) (W : World) (dirname : String)
    (dir : Option (List DirEntry)) (cb : Bool) (hwf : well_formed dir = true) :
    (∀ name, skip_name name = !eligible name)
    ∧ lua_load_plugins env W dirname dir cb true
        = Except.ok (W, ((eligible_files env.G_DIR_SEPARATOR_S dirname dir).length : Int))
    ∧ (W.L ≠ none →
        ∃ W1, lua_load_plugins env W dirname dir cb false
            = Except.ok (W1, ((eligible_files env.G_DIR_SEPARATOR_S dirname dir).length : Int))
          ∧ wslua_plugins_get_descriptions W1 = wslua_plugins_get_descriptions W
              ++ ((eligible_files env.G_DIR_SEPARATOR_S dirname dir).filter
                    fun e => script_loads env e.2).map plugin_record)
    ∧ (∀ (W0 : World) (Ls : lua_State) (path : String), W0.L = some Ls →
        ∃ W1, lua_load_script env W0 path 0 = Except.ok (W1, script_loads env path)) := by
  refine ⟨skip_name_eq, lua_load_plugins_count_only env W cb dir dirname hwf, fun hL => ?_,
    fun W0 Ls path hL => ?_⟩
  · obtain ⟨W1, h1, -, h3⟩ := lua_load_plugins_load env cb dir W dirname hwf hL
    exact ⟨W1, h1, h3⟩
  · obtain ⟨W1, h1, -, -⟩ := lua_load_script_result env W0 Ls path hL
    exact ⟨W1, h1⟩

/-- C8 witness: the tree with `a.lua`, `.hidden.lua`, `b.txt` and `sub/c.lua`.
Counting returns 2 and leaves the state alone; loading returns 2 and records
`a.lua` and `sub/c.lua` only. -/
theorem lua_load_plugins_eligible_files_witness :
    eligible_files "/" "plugins" (some demo_tree)
        = [("a.lua", "plugins/a.lua"), ("c.lua", "plugins/sub/c.lua")]
    ∧ lua_load_plugins demo_env demo_world "plugins" (some demo_tree) false true
        = Except.ok (demo_world, 2)
    ∧ ∃ W1, lua_load_plugins demo_env demo_world "plugins" (some demo_tree) false false
          = Except.ok (W1, 2)
        ∧ wslua_plugins_get_descriptions W1
          = [⟨"a.lua", "", "lua script", "plugins/a.lua"⟩,
             ⟨"c.lua", "", "lua script", "plugins/sub/c.lua"⟩] := by
  have he : eligible_files demo_env.G_DIR_SEPARATOR_S "plugins" (some demo_tree)
      = [("a.lua", "plugins/a.lua"), ("c.lua", "plugins/sub/c.lua")] := by
    simp only [demo_tree, eligible_files, eligible_files_list]
    decide
  have key := lua_load_plugins_eligible_files demo_env demo_world "plugins" (some demo_tree)
    false (by simp [demo_tree, well_formed, well_formed_list])
  rw [he] at key
  obtain ⟨-, hcount, hload, -⟩ := key
  obtain ⟨W1, h1, h2⟩ := hload (by decide)
  refine ⟨he, hcount, W1, h1, ?_⟩
  rw [h2]
  decide

/-! ## The plugin list: insertion order -/

/-- C10: the plugin list preserves insertion order and is never changed in
place. For every list and every sequence `ps` of `wslua_add_plugin` calls,
`wslua_plugins_get_descriptions` invokes its callback on the earlier records
exactly as before and then once per added plugin, in the order of the calls,
with exactly the name, version and filename given at insertion and the
description "lua script"; in particular a single addition leaves every
earlier record and their order unchanged, and starting from the empty list
the callback sees exactly the added plugins. -/
theorem plugin_list_keeps_insertion_order (W : World) (ps : List (String × String × String)) :
    wslua_plugins_get_descriptions
        (ps.foldl (fun W p => wslua_add_plugin W p.1 p.2.1 p.2.2) W)
      = wslua_plugins_get_descriptions W
          ++ ps.map (fun p => ⟨p.1, p.2.1, "lua script", p.2.2⟩)
    ∧ (∀ name version filename,
        wslua_plugins_get_descriptions (wslua_add_plugin W name version filename)
          = wslua_plugins_get_descriptions W ++ [⟨name, version, "lua script", filename⟩])
    ∧ wslua_plugins_get_descriptions
        (ps.foldl (fun W p => wslua_add_plugin W p.1 p.2.1 p.2.2)
          { W with wslua_plugin_list := none })
      = ps.map (fun p => ⟨p.1, p.2.1, "lua script", p.2.2⟩) := by
  have key : ∀ (ps : List (String × String × String)) (W : World),
      wslua_plugins_get_descriptions
          (ps.foldl (fun W p => wslua_add_plugin W p.1 p.2.1 p.2.2) W)
        = wslua_plugins_get_descriptions W
            ++ ps.map (fun p => ⟨p.1, p.2.1, "lua script", p.2.2⟩) := by
    intro ps
    induction ps with
    | nil => intro W; simp
    | cons p ps ih =>
      intro W
      rw [List.foldl_cons, ih, wslua_add_plugin_descriptions]
      simp
  refine ⟨key ps W, wslua_add_plugin_descriptions W, ?_⟩
  rw [key]
  rfl

/-! ## Exact dispatch: results that are not numbers -/

/-- C11 (as stated, refuted): the dissector registered for `txt` completes
without error and returns a string, "42". `lua_isnumber` accepts a string that
Lua converts to a number, so `dissect_lua` takes it as the consumed-byte count
and returns 42, not the 100 bytes of the buffer. -/
theorem dissect_lua_numeric_string_is_count :
    lookup_dissector demo_world demo_state "txt" = some (LuaValue.function 7)
      ∧ (∀ args, (demo_env.call 7 args).outcome
          = CallOutcome.returns [LuaValue.string "42"])
      ∧ (tvb_length demo_tvb : Int) = 100
      ∧ (∃ W1 pinfo1, dissect_lua demo_env demo_world demo_tvb (demo_pinfo "txt") none
          = Except.ok (W1, pinfo1, 42))
      ∧ (¬ ∃ W1 pinfo1, dissect_lua demo_env demo_world demo_tvb (demo_pinfo "txt") none
          = Except.ok (W1, pinfo1, (tvb_length demo_tvb : Int))) := by
  obtain ⟨W1, h1, -⟩ := dissect_lua_returns demo_env demo_world demo_state demo_tvb
    (demo_pinfo "txt") none "txt" 7 [LuaValue.string "42"] rfl rfl rfl rfl
  have hs : demo_env.str2d "42" = some 42 := by decide
  have hv : toGint 42 = 42 := by decide
  simp only [List.head?_cons, Option.getD_some, hs, hv] at h1
  refine ⟨rfl, fun _ => rfl, rfl, ⟨W1, _, h1⟩, ?_⟩
  rintro ⟨W2, p2, h2⟩
  rw [h1] at h2
  have h3 : (42 : Int) = (tvb_length demo_tvb : Int) := by
    injection h2 with h2
    exact congrArg (fun r => r.2.2) h2
  revert h3
  decide

/-- The test `lua_isnumber(L,-1)` rejects the value on top of the stack exactly
when it is not a number and, if a string, not convertible to one. -/
theorem lua_isnumber_top_false (env : Env) (Ls : lua_State) (v : LuaValue)
    (rest : List LuaValue) (hs : Ls.stack = v :: rest) :
    lua_isnumber env Ls (-1) = false
      ↔ (∀ n, v ≠ LuaValue.number n) ∧ (∀ s, v = LuaValue.string s → env.str2d s = none) := by
  cases v <;> simp [lua_isnumber, lua_index, stackpos, hs]

/-- C11 (amended): for every exact-dispatch call in which the registered
function completes without error and returns a value that `lua_isnumber`
rejects, `dissect_lua` returns the full buffer length ("entire buffer
consumed") and emits no diagnostic. The value tested is the first one returned,
nil when nothing is returned; it is rejected when it is not a number and, if a
string, one that Lua does not convert to a number: so nil, a boolean, a table,
a function, a userdata, nothing, and every string that is not numeric. -/
theorem dissect_lua_non_numeric_consumes_buffer (env : Env) (W : World) (Ls : lua_State)
    (tvb : tvbuff_t) (pinfo : packet_info) (tree : proto_tree) (P : String) (f : Nat)
    (hL : W.L = some Ls) (hP : pinfo.current_proto = some P)
    (hf : lookup_dissector W Ls P = some (LuaValue.function f))
    (hret : ∀ args, ∃ vals, (env.call f args).outcome = CallOutcome.returns vals
      ∧ (∀ n, vals.head?.getD LuaValue.nil ≠ LuaValue.number n)
      ∧ (∀ s, vals.head?.getD LuaValue.nil = LuaValue.string s → env.str2d s = none)) :
    ∃ W1 pinfo1, dissect_lua env W tvb pinfo tree
        = Except.ok (W1, pinfo1, (tvb_length tvb : Int))
      ∧ diagnostics (emitted W W1) = [] := by
  obtain ⟨vals, hr, hnum, hstr⟩ := hret [LuaValue.userdata W.handles.length,
    LuaValue.userdata (W.handles.length + 1), LuaValue.userdata (W.handles.length + 2)]
  obtain ⟨W1, h1, ht⟩ := dissect_lua_returns env W Ls tvb pinfo tree P f vals hL hP hf hr
  have hd : diagnostics (emitted W W1) = [] := by
    rw [emitted_append W W1 _ ht]; rfl
  generalize vals.head?.getD LuaValue.nil = top at h1 hnum hstr
  cases top with
  | number n => exact absurd rfl (hnum n)
  | string s =>
    simp only [hstr s rfl] at h1
    exact ⟨W1, _, h1, hd⟩
  | _ => exact ⟨W1, _, h1, hd⟩

/-- C11 witness: with table 2 as the exact-match table, the dissector
registered for `str` returns the string "x", which is no number; the call
returns the 100 bytes of the buffer and emits no diagnostic. -/
theorem dissect_lua_non_numeric_consumes_buffer_witness :
    ∃ W1 pinfo1, dissect_lua demo_env demo_world_alt demo_tvb (demo_pinfo "str") none
        = Except.ok (W1, pinfo1, (tvb_length demo_tvb : Int))
      ∧ diagnostics (emitted demo_world_alt W1) = [] :=
  dissect_lua_non_numeric_consumes_buffer demo_env demo_world_alt
    { demo_state with registry := [(1, LuaValue.table 2), (2, LuaValue.table 1)] }
    demo_tvb (demo_pinfo "str") none "str" 6 rfl rfl rfl
    (fun _ => ⟨[LuaValue.string "x"], rfl, (fun n h => by cases h),
      (fun s h => by
        have hs : s = "x" := by injection h with h; exact h.symm
        subst hs
        decide)⟩)

end Wslua
